import Mathlib

/-! # PebbleChart: layout engine and reveal animation of `pebble_chart.c`

A shallow embedding of `src/src/pebble_chart.c`.

Modelling conventions.

* C `float` values are rationals (`ℚ`) and `+ - * /` are the exact operations:
  there is no rounding, no infinity and no NaN, and a division by zero yields
  `0`.  The theorems that settle a claim for all inputs either do not depend
  on the float values or carry hypotheses that keep the ranges away from `0`
  and the values inside the range of `int`.  Where a claim turns on the
  rounding itself, the float operations are rounded with `binary32` (single
  precision, round to nearest, ties to even): `animation_update_rounded`,
  `closest_log10_rounded`.
* `(int)f` is truncation toward zero (`toInt`), the value of the C conversion
  whenever the truncated value fits an `int`; `(float)i` is the exact cast.
* `int` values are `Int`, `unsigned int` values are `Nat`; the one place where
  the code mixes them (`(unsigned int)bounds.size.w - (2 * iMargin)`) is taken
  modulo `2^32`.
* A heap block is the list of its cells.  `pXData` / `pYData` record every
  write of the fill loops in order of the write index `j`; `iNumPoints` is the
  number of cells that were allocated for them.
* A `void` function is a state transformer on `ChartLayerData`; the layout
  returns `Option`, with `none` for an execution that does not return (integer
  division by zero, or a `closest_log10` loop that never exits).
-/

namespace PebbleChart

/-! ## Numeric conversions -/

/-- C conversion `(int)f` of a float: the fractional part is discarded
(truncation toward zero). -/
def toInt (f : ℚ) : Int := if 0 ≤ f then ⌊f⌋ else ⌈f⌉

/-- C conversion of an `int` to `unsigned int`: reduction modulo `2^32`. -/
def toUnsigned (i : Int) : Nat := (i % 4294967296).toNat

/-- The binary exponent of a value `a ≥ 1`, searched upward: `a` is halved
while `2 ≤ a`. -/
def binadeUp : Nat → ℚ → Int → Int
  | 0, _, e => e
  | fuel + 1, a, e => if 2 ≤ a then binadeUp fuel (a / 2) (e + 1) else e

/-- The binary exponent of a value `0 < a < 1`, searched downward: `a` is
doubled while `a < 1`. -/
def binadeDown : Nat → ℚ → Int → Int
  | 0, _, e => e
  | fuel + 1, a, e => if a < 1 then binadeDown fuel (a * 2) (e - 1) else e

/-- The binary exponent `e` of a positive value, `2^e ≤ a < 2^(e+1)`
(`binade_spec`); the numerator, respectively the denominator, bounds the
number of steps of the search. -/
def binade (a : ℚ) : Int :=
  if 1 ≤ a then binadeUp a.num.natAbs a 0 else binadeDown a.den a 0

/-- The nearest integer, a tie going to the even one. -/
def roundHalfEven (q : ℚ) : Int :=
  if q - ⌊q⌋ < 1 / 2 then ⌊q⌋
  else if 1 / 2 < q - ⌊q⌋ then ⌊q⌋ + 1
  else if ⌊q⌋ % 2 = 0 then ⌊q⌋ else ⌊q⌋ + 1

/-- The result of a C `float` operation whose exact result is `q`: the nearest
number with a 24 bit significand, ties to even (IEEE 754 binary32 in its normal
range; overflow and subnormal numbers are not represented). -/
def binary32 (q : ℚ) : ℚ :=
  if q = 0 then 0
  else (if q < 0 then -1 else 1) *
    ((roundHalfEven (|q| / (2 : ℚ) ^ (binade |q| - 23)) : Int) : ℚ) * (2 : ℚ) ^ (binade |q| - 23)

/-- The macro `#define NOT_SET -777`: the magic number for "value not set". -/
def NOT_SET : ℚ := -777

/-! ## Data model -/

/-- The enum `ChartPlotType` of `pebble_chart.h`. -/
inductive ChartPlotType where
  | eLINE
  | eSCATTER
  | eBAR
  deriving DecidableEq, Repr

/-- The enum `ChartDataType` of `pebble_chart.h`. -/
inductive ChartDataType where
  | eINT
  | eFLOAT
  deriving DecidableEq, Repr

/-- The two host colours the widget is used with. -/
inductive GColor where
  | GColorBlack
  | GColorWhite
  deriving DecidableEq, Repr

/-- The field `bounds.size` of the host layer (`layer_get_bounds`). -/
structure GSize where
  w : Int
  h : Int
  deriving DecidableEq, Repr

/-- The struct `ChartSortHelper`: helper struct for sorting x-axis values. -/
structure ChartSortHelper where
  x_value : ℚ
  index : Nat
  deriving DecidableEq

instance : Inhabited ChartSortHelper := ⟨⟨0, 0⟩⟩

instance : IsTotal ChartSortHelper (fun a b => a.x_value ≤ b.x_value) :=
  ⟨fun a b => le_total a.x_value b.x_value⟩

instance : IsTrans ChartSortHelper (fun a b => a.x_value ≤ b.x_value) :=
  ⟨fun _ _ _ h1 h2 => le_trans h1 h2⟩

instance : IsRefl ChartSortHelper (fun a b => a.x_value ≤ b.x_value) :=
  ⟨fun a => le_refl a.x_value⟩

/-- The struct `ChartLayerData`.  A pointer to a heap block is `none` for `NULL` and
`some cells` otherwise; `pAnimationScheduled` is what the host reports through
`animation_is_scheduled (pAnimation)`. -/
structure ChartLayerData where
  pXOrigData : Option (List ℚ)
  pYOrigData : Option (List ℚ)
  iNumOrigPoints : Nat
  pXData : List Int
  pYData : List Int
  iNumPoints : Nat
  iXAxisIntercept : Int
  iYAxisIntercept : Int
  iYTicks : Int
  iBarWidth : Int
  typePlot : ChartPlotType
  clrPlot : GColor
  clrCanvas : GColor
  bShowPoints : Bool
  iMargin : Int
  fXMin : ℚ
  fXMax : ℚ
  fYMin : ℚ
  fYMax : ℚ
  bShowFrame : Bool
  bAnimate : Bool
  iAnimationDuration : Nat
  bLayoutDirty : Bool
  pAnimationScheduled : Bool
  iPointsToDraw : Nat
  deriving DecidableEq

/-- The creator `chart_layer_create`: the defaults of a fresh widget.  The cached scalars
are not initialised by the C code; they are taken as `0`. -/
def chart_layer_create : ChartLayerData where
  pXOrigData := none
  pYOrigData := none
  iNumOrigPoints := 0
  pXData := []
  pYData := []
  iNumPoints := 0
  iXAxisIntercept := 0
  iYAxisIntercept := 0
  iYTicks := 0
  iBarWidth := 0
  typePlot := ChartPlotType.eLINE
  clrPlot := GColor.GColorWhite
  clrCanvas := GColor.GColorBlack
  bShowPoints := false
  iMargin := 5
  fXMin := NOT_SET
  fXMax := NOT_SET
  fYMin := NOT_SET
  fYMax := NOT_SET
  bShowFrame := false
  bAnimate := true
  iAnimationDuration := 1500
  bLayoutDirty := false
  pAnimationScheduled := false
  iPointsToDraw := 0

/-! ## Setters -/

/-- The setter `chart_layer_set_plot_type`. -/
def chart_layer_set_plot_type (type : ChartPlotType) (d : ChartLayerData) : ChartLayerData :=
  { d with typePlot := type, bLayoutDirty := true }

/-- The setter `chart_layer_set_plot_color`. -/
def chart_layer_set_plot_color (color : GColor) (d : ChartLayerData) : ChartLayerData :=
  { d with clrPlot := color }

/-- The setter `chart_layer_set_canvas_color`. -/
def chart_layer_set_canvas_color (color : GColor) (d : ChartLayerData) : ChartLayerData :=
  { d with clrCanvas := color }

/-- The setter `chart_layer_show_points_on_line`. -/
def chart_layer_show_points_on_line (bShow : Bool) (d : ChartLayerData) : ChartLayerData :=
  { d with bShowPoints := bShow }

/-- The setter `chart_layer_set_margin`: stores the margin, adds the extra pixel for the
frame when the frame is shown, and marks the layout dirty. -/
def chart_layer_set_margin (margin : Int) (d : ChartLayerData) : ChartLayerData :=
  { d with
    iMargin := if d.bShowFrame then margin + 1 else margin
    bLayoutDirty := true }

/-- The setter `chart_layer_set_xmin`. -/
def chart_layer_set_xmin (xmin : ℚ) (d : ChartLayerData) : ChartLayerData :=
  { d with fXMin := xmin, bLayoutDirty := true }

/-- The setter `chart_layer_clear_xmin`. -/
def chart_layer_clear_xmin (d : ChartLayerData) : ChartLayerData :=
  chart_layer_set_xmin NOT_SET d

/-- The setter `chart_layer_set_xmax`. -/
def chart_layer_set_xmax (xmax : ℚ) (d : ChartLayerData) : ChartLayerData :=
  { d with fXMax := xmax, bLayoutDirty := true }

/-- The setter `chart_layer_clear_xmax`. -/
def chart_layer_clear_xmax (d : ChartLayerData) : ChartLayerData :=
  chart_layer_set_xmax NOT_SET d

/-- The setter `chart_layer_set_ymin`. -/
def chart_layer_set_ymin (ymin : ℚ) (d : ChartLayerData) : ChartLayerData :=
  { d with fYMin := ymin, bLayoutDirty := true }

/-- The setter `chart_layer_clear_ymin`. -/
def chart_layer_clear_ymin (d : ChartLayerData) : ChartLayerData :=
  chart_layer_set_ymin NOT_SET d

/-- The setter `chart_layer_set_ymax`. -/
def chart_layer_set_ymax (ymax : ℚ) (d : ChartLayerData) : ChartLayerData :=
  { d with fYMax := ymax, bLayoutDirty := true }

/-- The setter `chart_layer_clear_ymax`. -/
def chart_layer_clear_ymax (d : ChartLayerData) : ChartLayerData :=
  chart_layer_set_ymax NOT_SET d

/-- The setter `chart_layer_show_frame`: when the flag changes, the margin is decremented
on `true` and incremented on `false`; `bLayoutDirty` is not written. -/
def chart_layer_show_frame (bShow : Bool) (d : ChartLayerData) : ChartLayerData :=
  if d.bShowFrame != bShow then
    { d with
      bShowFrame := bShow
      iMargin := if bShow then d.iMargin - 1 else d.iMargin + 1 }
  else d

/-- The setter `chart_layer_animate`. -/
def chart_layer_animate (bAnimate : Bool) (d : ChartLayerData) : ChartLayerData :=
  { d with bAnimate := bAnimate }

/-- The setter `chart_layer_set_animation_duration`. -/
def chart_layer_set_animation_duration (ms : Nat) (d : ChartLayerData) : ChartLayerData :=
  { d with iAnimationDuration := ms }

/-- The copy loop / `memcpy` of `chart_layer_set_data`: the first `iNumPoints`
cells of the caller's array, as floats.  The caller guarantees that the array
has at least `iNumPoints` cells; a cell beyond the array reads as `0` here. -/
def copyData (p : List ℚ) (iNumPoints : Nat) : List ℚ :=
  (List.range iNumPoints).map (fun i => p.getD i 0)

/-- The function `chart_layer_set_data`.  The arrays are given by their numeric contents: a
cell of an `eINT` array is an integer and `(float)` converts it exactly, a cell
of an `eFLOAT` array is copied, so both branches store the same numbers. -/
def chart_layer_set_data (pX : List ℚ) (typeX : ChartDataType) (pY : List ℚ)
    (typeY : ChartDataType) (iNumPoints : Nat) (d : ChartLayerData) : ChartLayerData :=
  { d with
    iNumOrigPoints := iNumPoints
    pXOrigData := some (match typeX with
      | ChartDataType.eINT => copyData pX iNumPoints
      | ChartDataType.eFLOAT => copyData pX iNumPoints)
    pYOrigData := some (match typeY with
      | ChartDataType.eINT => copyData pY iNumPoints
      | ChartDataType.eFLOAT => copyData pY iNumPoints)
    bLayoutDirty := true }

/-! ## Sorting -/

/-- The comparator `cmpChartSortHelper`: the difference of the two float
x-values, converted to the `int` return type.  The C conversion is defined
while the difference is inside the range of `int` (`|a - b| < 2^31`); the
theorems that rely on the order bound the x-values accordingly. -/
def cmpChartSortHelper (a b : ChartSortHelper) : Int :=
  toInt (a.x_value - b.x_value)

/-- The libc routine `qsort`, which is not part of the repository: modelled as
the stable insertion sort that sees the elements only through the sign of the
comparator (an element goes in front of the first one it does not compare
greater than). -/
def qsort {α : Type} (cmp : α → α → Int) (l : List α) : List α :=
  l.insertionSort (fun a b => cmp a b ≤ 0)

/-- The array `sort_order` as first filled by the layout:
`sort_order[i] = { .x_value = pXOrigData[i], .index = i }`. -/
def sortOrderInit (xs : List ℚ) (n : Nat) : List ChartSortHelper :=
  (List.range n).map (fun i => { x_value := xs.getD i 0, index := i })

/-- The array `sort_order` after "figure out sort order": sorted with `qsort`
unless the plot is a scatter plot. -/
def layoutSortOrder (typePlot : ChartPlotType) (xs : List ℚ) (n : Nat) :
    List ChartSortHelper :=
  if typePlot ≠ ChartPlotType.eSCATTER then qsort cmpChartSortHelper (sortOrderInit xs n)
  else sortOrderInit xs n

/-! ## Sampling -/

/-- The unsigned expression `(unsigned int)bounds.size.w - (2 * pData->iMargin)`. -/
def plotWidthU (bounds : GSize) (iMargin : Int) : Nat :=
  toUnsigned (bounds.w - 2 * iMargin)

/-- The sampling rate `iSampling`: `1` for a scatter plot or when the unsigned
plotting width exceeds the number of points, and otherwise the integer
quotient `iNumOrigPoints / width`, which does not return when `width` is `0`. -/
def iSampling (typePlot : ChartPlotType) (bounds : GSize) (iMargin : Int)
    (iNumOrigPoints : Nat) : Option Nat :=
  if typePlot = ChartPlotType.eSCATTER ∨ plotWidthU bounds iMargin > iNumOrigPoints then some 1
  else if plotWidthU bounds iMargin = 0 then none
  else some (iNumOrigPoints / plotWidthU bounds iMargin)

/-- The value stored by `pData->iNumPoints = pData->iNumOrigPoints / iSampling`
("init for cached data"), the first statement after the sampling rate is
computed; not defined when the sampling rate is not. -/
def sampledCount (typePlot : ChartPlotType) (bounds : GSize) (iMargin : Int)
    (iNumOrigPoints : Nat) : Option Nat :=
  (iSampling typePlot bounds iMargin iNumOrigPoints).map (fun s => iNumOrigPoints / s)

/-- The values of `i` for which the body of
`for (i = 0; i < n; i += s)` runs, starting from `i`, for at most `fuel`
iterations. -/
def strideIdxAux (n s : Nat) : Nat → Nat → List Nat
  | 0, _ => []
  | fuel + 1, i => if i < n then i :: strideIdxAux n s fuel (i + s) else []

/-- The values of `i` visited by `for (i = 0; i < n; i += s)`; `n` iterations
are enough for every `s ≥ 1`. -/
def strideIdx (n s : Nat) : List Nat := strideIdxAux n s n 0

/-! ## Math helpers -/

/-- The loop `while (num > 10) { num = num / 10; ++log; }` of `closest_log10`,
cut off after `fuel` tests of the condition. -/
def closest_log10_up : Nat → ℚ → Int → Option Int
  | 0, _, _ => none
  | fuel + 1, num, log =>
    if num > 10 then closest_log10_up fuel (num / 10) (log + 1) else some log

/-- The loop `while (num < 10) { num = num * 10; --log; }` of `closest_log10`,
cut off after `fuel` tests of the condition. -/
def closest_log10_down : Nat → ℚ → Int → Option Int
  | 0, _, _ => none
  | fuel + 1, num, log =>
    if num < 10 then closest_log10_down fuel (num * 10) (log - 1) else some log

/-- The body of `closest_log10` with both loops cut off after `fuel` tests. -/
def closest_log10_fuel (fuel : Nat) (num : ℚ) : Option Int :=
  if num < 0 then some 0
  else if num > 1 then closest_log10_up fuel num 0
  else closest_log10_down fuel num 0

/-- The function `closest_log10`.  The cut-off `|numerator| + denominator + 2`
is never reached by a loop that exits (`closest_log10_isSome`), so `none`
stands for a loop that runs forever.  The quotients `num / 10` are exact
here; `closest_log10_rounded` rounds them. -/
def closest_log10 (num : ℚ) : Option Int :=
  closest_log10_fuel (num.num.natAbs + num.den + 2) num

/-- The loop `while (num > 10) { num = num / 10; ++log; }` with the quotient
rounded by `fl`, cut off after `fuel` tests of the condition. -/
def closest_log10_up_rounded (fl : ℚ → ℚ) : Nat → ℚ → Int → Option Int
  | 0, _, _ => none
  | fuel + 1, num, log =>
    if num > 10 then closest_log10_up_rounded fl fuel (fl (num / 10)) (log + 1) else some log

/-- The loop `while (num < 10) { num = num * 10; --log; }` with the product
rounded by `fl`, cut off after `fuel` tests of the condition. -/
def closest_log10_down_rounded (fl : ℚ → ℚ) : Nat → ℚ → Int → Option Int
  | 0, _, _ => none
  | fuel + 1, num, log =>
    if num < 10 then closest_log10_down_rounded fl fuel (fl (num * 10)) (log - 1) else some log

/-- The function `closest_log10` with its float operations rounded by `fl`,
under the cut-off of `closest_log10`.  With `binary32` for `fl` this is the
single precision arithmetic of the C code; with the identity it is
`closest_log10`. -/
def closest_log10_rounded (fl : ℚ → ℚ) (num : ℚ) : Option Int :=
  if num < 0 then some 0
  else if num > 1 then closest_log10_up_rounded fl (num.num.natAbs + num.den + 2) num 0
  else closest_log10_down_rounded fl (num.num.natAbs + num.den + 2) num 0

/-- The function `exponential10`: `exp` multiplications, or `-exp` divisions,
of `1` by `10`. -/
def exponential10 (exp : Int) : ℚ :=
  if exp > 0 then Nat.iterate (fun f => f * 10) exp.toNat 1
  else if exp < 0 then Nat.iterate (fun f => f / 10) (-exp).toNat 1
  else 1

/-! ## Layout -/

/-- The running values `fMaxY`, `fMinY` of "figure out Y-scale". -/
structure YScan where
  fMaxY : ℚ
  fMinY : ℚ
  deriving DecidableEq

/-- One iteration of the y-scan: both tests read `pYOrigData[i]`. -/
def scanYStep (ys : List ℚ) (acc : YScan) (i : Nat) : YScan :=
  { fMaxY := if ys.getD i 0 > acc.fMaxY then ys.getD i 0 else acc.fMaxY
    fMinY := if ys.getD i 0 < acc.fMinY then ys.getD i 0 else acc.fMinY }

/-- The y-scan `for (i = 0; i < iNumOrigPoints; i += iSampling)`, started at
`pYOrigData[0]`. -/
def scanY (ys : List ℚ) (idx : List Nat) : YScan :=
  idx.foldl (scanYStep ys) { fMaxY := ys.getD 0 0, fMinY := ys.getD 0 0 }

/-- The running values `fMaxX`, `fMinX`, `fMinXSep` of "figure out X-scale". -/
structure XScan where
  fMaxX : ℚ
  fMinX : ℚ
  fMinXSep : ℚ
  deriving DecidableEq

/-- The difference
`pXOrigData[sort_order[i].index] - pXOrigData[sort_order[i-1].index]`. -/
def sortedGap (xs : List ℚ) (sort_order : List ChartSortHelper) (i : Nat) : ℚ :=
  xs.getD (sort_order.getD i default).index 0
    - xs.getD (sort_order.getD (i - 1) default).index 0

/-- One iteration of the x-scan: the extrema read `pXOrigData[i]`, the
separation reads through `sort_order` when `i != 0`. -/
def scanXStep (xs : List ℚ) (sort_order : List ChartSortHelper) (acc : XScan) (i : Nat) :
    XScan :=
  { fMaxX := if xs.getD i 0 > acc.fMaxX then xs.getD i 0 else acc.fMaxX
    fMinX := if xs.getD i 0 < acc.fMinX then xs.getD i 0 else acc.fMinX
    fMinXSep :=
      if i ≠ 0 then
        if sortedGap xs sort_order i < acc.fMinXSep then sortedGap xs sort_order i
        else acc.fMinXSep
      else acc.fMinXSep }

/-- The x-scan, started at `pXOrigData[0]` and at the gap between the first two
sorted points (`0` for a single point). -/
def scanX (xs : List ℚ) (sort_order : List ChartSortHelper) (n : Nat) (idx : List Nat) :
    XScan :=
  idx.foldl (scanXStep xs sort_order)
    { fMaxX := xs.getD 0 0
      fMinX := xs.getD 0 0
      fMinXSep := if n > 1 then sortedGap xs sort_order 1 else 0 }

/-- The float locals of the layout once both scales are known. -/
structure LayoutScale where
  fMinY : ℚ
  fMaxY : ℚ
  fYScale : ℚ
  fMinX : ℚ
  fMaxX : ℚ
  fMinXSep : ℚ
  fXScale : ℚ
  deriving DecidableEq

/-- The scales of the layout: scanned extrema, overridden by the pinned bounds
that are not `NOT_SET`; the separation is zeroed unless the plot is a bar
plot; each scale is the plotting extent divided by the range.  For a range of
`0` the C code divides by `0.0f` and goes on with an infinity or a NaN, whose
conversion to `int` is not defined; the scale `0` that results here is not
the code's, and no claim below rests on the value of a scale at a zero
range. -/
def layoutScale (bounds : GSize) (d : ChartLayerData) (xs ys : List ℚ)
    (sort_order : List ChartSortHelper) (idx : List Nat) : LayoutScale :=
  let sy := scanY ys idx
  let fMinY := if d.fYMin ≠ NOT_SET then d.fYMin else sy.fMinY
  let fMaxY := if d.fYMax ≠ NOT_SET then d.fYMax else sy.fMaxY
  let sx := scanX xs sort_order d.iNumOrigPoints idx
  let fMinX := if d.fXMin ≠ NOT_SET then d.fXMin else sx.fMinX
  let fMaxX := if d.fXMax ≠ NOT_SET then d.fXMax else sx.fMaxX
  let fMinXSep := if d.typePlot ≠ ChartPlotType.eBAR then 0 else sx.fMinXSep
  { fMinY := fMinY
    fMaxY := fMaxY
    fYScale := ((bounds.h - 2 * d.iMargin : Int) : ℚ) / (fMaxY - fMinY)
    fMinX := fMinX
    fMaxX := fMaxX
    fMinXSep := fMinXSep
    fXScale := ((bounds.w - 2 * d.iMargin : Int) : ℚ) / (fMaxX - fMinX + fMinXSep) }

/-- The scales the layout computes for the sample set `xs`, `ys` when the
sampling rate is `s`: `layoutScale` at the layout's own `sort_order` and at
the indices its loops visit. -/
def layoutScaleAt (bounds : GSize) (d : ChartLayerData) (xs ys : List ℚ) (s : Nat) :
    LayoutScale :=
  layoutScale bounds d xs ys (layoutSortOrder d.typePlot xs d.iNumOrigPoints)
    (strideIdx d.iNumOrigPoints s)

/-- The original index `sort_order[j * s].index` of the sample that the fill
loops read in their iteration number `j`. -/
def retainedIndex (typePlot : ChartPlotType) (xs : List ℚ) (n s j : Nat) : Nat :=
  ((layoutSortOrder typePlot xs n).getD (j * s) default).index

/-- The pixel row of a data value `y`:
`bounds.size.h - ((int)(fYScale * (y - fMinY)) + iMargin)`. -/
def yPixel (bounds : GSize) (iMargin : Int) (sc : LayoutScale) (y : ℚ) : Int :=
  bounds.h - (toInt (sc.fYScale * (y - sc.fMinY)) + iMargin)

/-- The pixel column of a data value `x`:
`(int)(fXScale * (x - fMinX + fMinXSep/2)) + iMargin`. -/
def xPixel (iMargin : Int) (sc : LayoutScale) (x : ℚ) : Int :=
  toInt (sc.fXScale * (x - sc.fMinX + sc.fMinXSep / 2)) + iMargin

/-- The bar width: `(int)(fXScale * fMinXSep)`, less `2` when it exceeds `2`. -/
def barWidth (sc : LayoutScale) : Int :=
  if toInt (sc.fXScale * sc.fMinXSep) > 2 then toInt (sc.fXScale * sc.fMinXSep) - 2
  else toInt (sc.fXScale * sc.fMinXSep)

/-- The function `chart_layer_update_layout`, for a non-null layer whose
bounds are `bounds`. -/
def chart_layer_update_layout (bounds : GSize) (d : ChartLayerData) : Option ChartLayerData :=
  if d.bLayoutDirty = false then some d
  else
    let d0 : ChartLayerData :=
      { d with
        bLayoutDirty := false
        pXData := if d.iNumPoints ≠ 0 then [] else d.pXData
        pYData := if d.iNumPoints ≠ 0 then [] else d.pYData
        iNumPoints := 0 }
    match d.pXOrigData, d.pYOrigData with
    | some xs, some ys =>
      if d.iNumOrigPoints = 0 then some d0
      else
        match iSampling d.typePlot bounds d.iMargin d.iNumOrigPoints with
        | none => none
        | some s =>
          let sort_order := layoutSortOrder d.typePlot xs d.iNumOrigPoints
          let idx := strideIdx d.iNumOrigPoints s
          let sc := layoutScale bounds d xs ys sort_order idx
          match closest_log10 (sc.fMaxY - sc.fMinY) with
          | none => none
          | some lg =>
            some { d0 with
              iNumPoints := d.iNumOrigPoints / s
              pYData := idx.map (fun i =>
                yPixel bounds d.iMargin sc (ys.getD (sort_order.getD i default).index 0))
              iYAxisIntercept := bounds.h - (toInt (sc.fYScale * -sc.fMinY) + d.iMargin)
              iYTicks := toInt (sc.fYScale * exponential10 lg)
              pXData := idx.map (fun i =>
                xPixel d.iMargin sc (xs.getD (sort_order.getD i default).index 0))
              iBarWidth := if d.typePlot = ChartPlotType.eBAR then barWidth sc else d.iBarWidth
              iXAxisIntercept := toInt (sc.fXScale * -sc.fMinX) + d.iMargin
              iPointsToDraw := 0 }
    | _, _ => some d0

/-! ## Animation -/

/-- The function `animation_update`, called for each frame of the animation,
with the quotient and the product taken exactly.  The host constant
`ANIMATION_NORMALIZED_MAX` is a parameter. -/
def animation_update (ANIMATION_NORMALIZED_MAX : Nat) (time_normalized : Nat)
    (d : ChartLayerData) : ChartLayerData :=
  if time_normalized = ANIMATION_NORMALIZED_MAX then
    { d with iPointsToDraw := d.iNumPoints }
  else
    { d with
      iPointsToDraw := toUnsigned (toInt ((d.iNumPoints : ℚ) *
        ((time_normalized : ℚ) / (ANIMATION_NORMALIZED_MAX : ℚ)))) }

/-- The function `animation_update` with every float operation rounded by `fl`:
the conversions `(float)time_normalized`, `(float)ANIMATION_NORMALIZED_MAX`
and that of `iNumPoints`, the quotient and the product.  With `binary32` for
`fl` this is the single precision arithmetic of the C code; with the identity
it is `animation_update`. -/
def animation_update_rounded (fl : ℚ → ℚ) (ANIMATION_NORMALIZED_MAX : Nat)
    (time_normalized : Nat) (d : ChartLayerData) : ChartLayerData :=
  if time_normalized = ANIMATION_NORMALIZED_MAX then
    { d with iPointsToDraw := d.iNumPoints }
  else
    { d with
      iPointsToDraw := toUnsigned (toInt (fl (fl (d.iNumPoints : ℚ) *
        fl (fl (time_normalized : ℚ) / fl (ANIMATION_NORMALIZED_MAX : ℚ))))) }

/-- The state changes of `chart_layer_update_func`: the layout is brought up
to date, then the reveal is started (or completed at once when animation is
off) if the number of drawn points differs from the number of points and no
animation is scheduled.  The drawing calls themselves change no state. -/
def chart_layer_update_func (bounds : GSize) (d : ChartLayerData) : Option ChartLayerData :=
  (chart_layer_update_layout bounds d).map (fun d1 =>
    if d1.iNumPoints ≠ d1.iPointsToDraw ∧ d1.pAnimationScheduled = false then
      if d1.bAnimate then { d1 with pAnimationScheduled := true }
      else { d1 with iPointsToDraw := d1.iNumPoints }
    else d1)

/-- The state a recompute leaves behind when it returns (the state it was
called on when it does not). -/
def layoutResult (bounds : GSize) (d : ChartLayerData) : ChartLayerData :=
  (chart_layer_update_layout bounds d).getD d

/-! ## The demo gallery of `pebble_chart_test.c` -/

/-- The bounds of the chart layer in the demo: `.size = { bounds.size.w, 80 }`
on the 144 pixel wide window. -/
def demoBounds : GSize := { w := 144, h := 80 }

/-- The loader `load_chart_1` ("Pinned X to 0"). -/
def load_chart_1 (d : ChartLayerData) : ChartLayerData :=
  chart_layer_set_ymin 0
    (chart_layer_set_data [50, 60, 80, 90, 100, 110] ChartDataType.eINT
      [20, 22, 21, 20, 19, 17] ChartDataType.eINT 6 d)

/-- The y-values of `load_chart_3`: `y[i] = i ? y[i-1]+i : i`. -/
def chart3Y : Nat → ℚ
  | 0 => 0
  | i + 1 => chart3Y i + ((i + 1 : Nat) : ℚ)

/-- The loader `load_chart_3` ("200 pt Sampling"). -/
def load_chart_3 (d : ChartLayerData) : ChartLayerData :=
  chart_layer_set_data ((List.range 200).map (fun i => (i : ℚ))) ChartDataType.eINT
    ((List.range 200).map chart3Y) ChartDataType.eINT 200 d

/-- The loader `load_chart_4` ("Scatter chart"): `x[i] = i`,
`y[i] = i + ((i%10) - 5)`. -/
def load_chart_4 (d : ChartLayerData) : ChartLayerData :=
  chart_layer_set_data ((List.range 50).map (fun i => (i : ℚ))) ChartDataType.eINT
    ((List.range 50).map (fun i => (((i : Int) + ((i : Int) % 10 - 5) : Int) : ℚ)))
    ChartDataType.eINT 50
    (chart_layer_set_plot_type ChartPlotType.eSCATTER d)

/-- The loader `load_chart_7` ("Unsorted X"). -/
def load_chart_7 (d : ChartLayerData) : ChartLayerData :=
  chart_layer_set_data [4, 2, 5, 0, 3, 1] ChartDataType.eFLOAT [4, 2, 5, 0, 3, 1]
    ChartDataType.eFLOAT 6 d

/-! ## Further sample charts -/

/-- A line chart of 269 points `(i, i)`, `i = 0 .. 268`, on a fresh widget. -/
def rampChart269 : ChartLayerData :=
  chart_layer_set_data ((List.range 269).map (fun i => (i : ℚ))) ChartDataType.eINT
    ((List.range 269).map (fun i => (i : ℚ))) ChartDataType.eINT 269 chart_layer_create

/-- A bar chart of the three float samples `(0.5, 1)`, `(0.0, 2)`, `(0.9, 3)`
on a fresh widget. -/
def fractionalBarChart : ChartLayerData :=
  chart_layer_set_data [1 / 2, 0, 9 / 10] ChartDataType.eFLOAT [1, 2, 3] ChartDataType.eFLOAT 3
    (chart_layer_set_plot_type ChartPlotType.eBAR chart_layer_create)

/-! ## States used by the later claims -/

/-- The state a draw (`chart_layer_update_func`) leaves behind when it returns
(the state it was called on when it does not). -/
def drawResult (bounds : GSize) (d : ChartLayerData) : ChartLayerData :=
  (chart_layer_update_func bounds d).getD d

/-- A layer 12 pixels wide and 80 pixels high: with the default margin 5 the
plotting width is 2. -/
def narrowBounds : GSize := { w := 12, h := 80 }

/-- A line chart of the four samples `(3, 10)`, `(2, 20)`, `(1, 30)`,
`(0, 40)`, given by descending x, on a fresh widget. -/
def descendingChart : ChartLayerData :=
  chart_layer_set_data [3, 2, 1, 0] ChartDataType.eINT [10, 20, 30, 40]
    ChartDataType.eINT 4 chart_layer_create

/-- A line chart of the single sample `(3, 7)` on a fresh widget. -/
def singlePointChart : ChartLayerData :=
  chart_layer_set_data [3] ChartDataType.eINT [7] ChartDataType.eINT 1 chart_layer_create

/-- The demo chart "Unsorted X" with the margin set to 72, half the width of
the demo layer. -/
def halfWidthMarginChart : ChartLayerData :=
  chart_layer_set_margin 72 (load_chart_7 chart_layer_create)

/-- The demo chart "Unsorted X" after its first draw and the last tick of the
reveal, with 65535 for the host constant `ANIMATION_NORMALIZED_MAX`. -/
def revealedChart : ChartLayerData :=
  animation_update 65535 65535 (drawResult demoBounds (load_chart_7 chart_layer_create))

/-- The revealed chart after `chart_layer_set_data` with `iNumPoints = 0`. -/
def emptiedChart : ChartLayerData :=
  chart_layer_set_data [] ChartDataType.eINT [] ChartDataType.eINT 0 revealedChart

/-- A line chart of the two float samples `(0, 0)` and `(1, 0.8)` on a fresh
widget: the y-range is 0.8. -/
def smallRangeChart : ChartLayerData :=
  chart_layer_set_data [0, 1] ChartDataType.eINT [0, 4 / 5] ChartDataType.eFLOAT 2
    chart_layer_create

/-- A line chart of the three samples `(3, 5)`, `(1, 5)`, `(2, 5)` on a fresh
widget: all y-values are equal. -/
def flatLineChart : ChartLayerData :=
  chart_layer_set_data [3, 1, 2] ChartDataType.eINT [5, 5, 5] ChartDataType.eINT 3
    chart_layer_create

/-- A scatter chart of the three samples `(1, 5)`, `(2, 5)`, `(3, 5)` on a
fresh widget: all y-values are equal. -/
def flatScatterChart : ChartLayerData :=
  chart_layer_set_data [1, 2, 3] ChartDataType.eINT [5, 5, 5] ChartDataType.eINT 3
    (chart_layer_set_plot_type ChartPlotType.eSCATTER chart_layer_create)

/-- A widget with `n` laid out points and nothing else set: the state an
animation tick is applied to. -/
def laidOutPoints (n : Nat) : ChartLayerData :=
  { chart_layer_create with iNumPoints := n }

/-- The handler `animation_stopped`: its body is empty; the host calls it when
it takes the animation off its schedule, after which
`animation_is_scheduled` is false. -/
def animation_stopped (d : ChartLayerData) : ChartLayerData :=
  { d with pAnimationScheduled := false }

/-- The states of a widget that the host can bring about, starting from
`chart_layer_create`: data loads (the count is an `unsigned int`), the
setters, recomputes and draws that return, animation ticks with
`time_normalized ≤ ANIMATION_NORMALIZED_MAX`, and the end of an animation. -/
inductive Reachable (ANIMATION_NORMALIZED_MAX : Nat) : ChartLayerData → Prop where
  | create : Reachable ANIMATION_NORMALIZED_MAX chart_layer_create
  | set_data (d : ChartLayerData) (pX pY : List ℚ) (typeX typeY : ChartDataType)
      (iNumPoints : Nat) :
      Reachable ANIMATION_NORMALIZED_MAX d → iNumPoints < 4294967296 →
      Reachable ANIMATION_NORMALIZED_MAX (chart_layer_set_data pX typeX pY typeY iNumPoints d)
  | set_plot_type (d : ChartLayerData) (type : ChartPlotType) :
      Reachable ANIMATION_NORMALIZED_MAX d →
      Reachable ANIMATION_NORMALIZED_MAX (chart_layer_set_plot_type type d)
  | set_plot_color (d : ChartLayerData) (color : GColor) :
      Reachable ANIMATION_NORMALIZED_MAX d →
      Reachable ANIMATION_NORMALIZED_MAX (chart_layer_set_plot_color color d)
  | set_canvas_color (d : ChartLayerData) (color : GColor) :
      Reachable ANIMATION_NORMALIZED_MAX d →
      Reachable ANIMATION_NORMALIZED_MAX (chart_layer_set_canvas_color color d)
  | show_points_on_line (d : ChartLayerData) (bShow : Bool) :
      Reachable ANIMATION_NORMALIZED_MAX d →
      Reachable ANIMATION_NORMALIZED_MAX (chart_layer_show_points_on_line bShow d)
  | set_margin (d : ChartLayerData) (margin : Int) :
      Reachable ANIMATION_NORMALIZED_MAX d →
      Reachable ANIMATION_NORMALIZED_MAX (chart_layer_set_margin margin d)
  | set_xmin (d : ChartLayerData) (v : ℚ) :
      Reachable ANIMATION_NORMALIZED_MAX d →
      Reachable ANIMATION_NORMALIZED_MAX (chart_layer_set_xmin v d)
  | set_xmax (d : ChartLayerData) (v : ℚ) :
      Reachable ANIMATION_NORMALIZED_MAX d →
      Reachable ANIMATION_NORMALIZED_MAX (chart_layer_set_xmax v d)
  | set_ymin (d : ChartLayerData) (v : ℚ) :
      Reachable ANIMATION_NORMALIZED_MAX d →
      Reachable ANIMATION_NORMALIZED_MAX (chart_layer_set_ymin v d)
  | set_ymax (d : ChartLayerData) (v : ℚ) :
      Reachable ANIMATION_NORMALIZED_MAX d →
      Reachable ANIMATION_NORMALIZED_MAX (chart_layer_set_ymax v d)
  | show_frame (d : ChartLayerData) (bShow : Bool) :
      Reachable ANIMATION_NORMALIZED_MAX d →
      Reachable ANIMATION_NORMALIZED_MAX (chart_layer_show_frame bShow d)
  | animate (d : ChartLayerData) (bAnimate : Bool) :
      Reachable ANIMATION_NORMALIZED_MAX d →
      Reachable ANIMATION_NORMALIZED_MAX (chart_layer_animate bAnimate d)
  | set_animation_duration (d : ChartLayerData) (ms : Nat) :
      Reachable ANIMATION_NORMALIZED_MAX d →
      Reachable ANIMATION_NORMALIZED_MAX (chart_layer_set_animation_duration ms d)
  | update_layout (d d' : ChartLayerData) (bounds : GSize) :
      Reachable ANIMATION_NORMALIZED_MAX d → chart_layer_update_layout bounds d = some d' →
      Reachable ANIMATION_NORMALIZED_MAX d'
  | update_func (d d' : ChartLayerData) (bounds : GSize) :
      Reachable ANIMATION_NORMALIZED_MAX d → chart_layer_update_func bounds d = some d' →
      Reachable ANIMATION_NORMALIZED_MAX d'
  | animation_update (d : ChartLayerData) (time_normalized : Nat) :
      Reachable ANIMATION_NORMALIZED_MAX d → time_normalized ≤ ANIMATION_NORMALIZED_MAX →
      Reachable ANIMATION_NORMALIZED_MAX
        (animation_update ANIMATION_NORMALIZED_MAX time_normalized d)
  | animation_stopped (d : ChartLayerData) :
      Reachable ANIMATION_NORMALIZED_MAX d →
      Reachable ANIMATION_NORMALIZED_MAX (animation_stopped d)

/-! ## Conversions and the stride loop -/

theorem toInt_zero : toInt 0 = 0 := by simp [toInt]

theorem toInt_mono {a b : ℚ} (h : a ≤ b) : toInt a ≤ toInt b := by
  unfold toInt
  by_cases ha : 0 ≤ a
  · have hb : 0 ≤ b := le_trans ha h
    simp only [ha, hb, if_true]
    exact Int.floor_le_floor h
  · by_cases hb : 0 ≤ b
    · simp only [ha, hb, if_true, if_false]
      have h1 : ⌈a⌉ ≤ 0 := Int.ceil_le.2 (by push_neg at ha; exact_mod_cast ha.le)
      have h2 : 0 ≤ ⌊b⌋ := Int.floor_nonneg.2 hb
      omega
    · simp only [ha, hb, if_false]
      exact Int.ceil_le_ceil h

theorem toInt_intCast (z : Int) : toInt (z : ℚ) = z := by
  unfold toInt
  split <;> simp

theorem strideIdxAux_getElem? (n s : Nat) :
    ∀ fuel i j, i + j * s < n → j < fuel → (strideIdxAux n s fuel i)[j]? = some (i + j * s) := by
  intro fuel
  induction fuel with
  | zero => intro i j _ h; omega
  | succ fuel ih =>
    intro i j hlt hj
    have hi : i < n := lt_of_le_of_lt (Nat.le_add_right _ _) hlt
    rw [strideIdxAux, if_pos hi]
    cases j with
    | zero => simp
    | succ j =>
      rw [List.getElem?_cons_succ, ih (i + s) j (by rw [Nat.succ_mul] at hlt; omega) (by omega)]
      congr 1
      rw [Nat.succ_mul]; omega

theorem strideIdx_getD (n s j : Nat) (hs : 1 ≤ s) (hj : j * s < n) :
    (strideIdx n s)[j]? = some (j * s) := by
  have hjn : j < n := lt_of_le_of_lt (Nat.le_mul_of_pos_right j hs) hj
  have := strideIdxAux_getElem? n s n 0 j (by simpa using hj) hjn
  simpa [strideIdx] using this

theorem strideIdxAux_one (n : Nat) :
    ∀ fuel i, n ≤ i + fuel → strideIdxAux n 1 fuel i = List.range' i (n - i) := by
  intro fuel
  induction fuel with
  | zero =>
    intro i h
    have : n - i = 0 := by omega
    simp [strideIdxAux, this]
  | succ fuel ih =>
    intro i h
    rw [strideIdxAux]
    by_cases hi : i < n
    · rw [if_pos hi, ih (i + 1) (by omega)]
      have : n - i = (n - (i + 1)) + 1 := by omega
      rw [this, List.range'_succ]
    · rw [if_neg hi]
      have : n - i = 0 := by omega
      simp [this]

theorem strideIdx_one (n : Nat) : strideIdx n 1 = List.range n := by
  rw [strideIdx, strideIdxAux_one n n 0 (by omega), List.range_eq_range']
  simp

/-! ## What a recompute stores -/

/-- What a recompute that returns has stored, for a dirty layout over a
non-empty sample set. -/
theorem layout_spec (bounds : GSize) (d d' : ChartLayerData) (xs ys : List ℚ)
    (hdirty : d.bLayoutDirty = true) (hx : d.pXOrigData = some xs)
    (hy : d.pYOrigData = some ys) (hn : d.iNumOrigPoints ≠ 0)
    (hret : chart_layer_update_layout bounds d = some d') :
    ∃ s lg, iSampling d.typePlot bounds d.iMargin d.iNumOrigPoints = some s ∧
      closest_log10 ((layoutScaleAt bounds d xs ys s).fMaxY
        - (layoutScaleAt bounds d xs ys s).fMinY) = some lg ∧
      d'.iNumPoints = d.iNumOrigPoints / s ∧
      d'.pXData = (strideIdx d.iNumOrigPoints s).map (fun i =>
        xPixel d.iMargin (layoutScaleAt bounds d xs ys s)
          (xs.getD ((layoutSortOrder d.typePlot xs d.iNumOrigPoints).getD i default).index 0)) ∧
      d'.pYData = (strideIdx d.iNumOrigPoints s).map (fun i =>
        yPixel bounds d.iMargin (layoutScaleAt bounds d xs ys s)
          (ys.getD ((layoutSortOrder d.typePlot xs d.iNumOrigPoints).getD i default).index 0)) := by
  unfold chart_layer_update_layout at hret
  simp only [hdirty, hx, hy, hn, if_false, Bool.true_eq_false] at hret
  cases hs : iSampling d.typePlot bounds d.iMargin d.iNumOrigPoints with
  | none => simp [hs] at hret
  | some s =>
    simp only [hs] at hret
    cases hl : closest_log10 ((layoutScaleAt bounds d xs ys s).fMaxY
        - (layoutScaleAt bounds d xs ys s).fMinY) with
    | none =>
      unfold layoutScaleAt at hl
      simp [hl] at hret
    | some lg =>
      unfold layoutScaleAt at hl
      simp only [hl, Option.some.injEq] at hret
      refine ⟨s, lg, rfl, hl, ?_, ?_, ?_⟩ <;> (subst hret; rfl)

/-- A dirty recompute over a non-empty sample set returns as soon as the
sampling rate is defined and the y-range is not zero. -/
theorem layout_returns (bounds : GSize) (d : ChartLayerData) (xs ys : List ℚ) (s : Nat) (lg : Int)
    (hdirty : d.bLayoutDirty = true) (hx : d.pXOrigData = some xs)
    (hy : d.pYOrigData = some ys) (hn : d.iNumOrigPoints ≠ 0)
    (hs : iSampling d.typePlot bounds d.iMargin d.iNumOrigPoints = some s)
    (hl : closest_log10 ((layoutScaleAt bounds d xs ys s).fMaxY
        - (layoutScaleAt bounds d xs ys s).fMinY) = some lg) :
    ∃ d', chart_layer_update_layout bounds d = some d' := by
  unfold layoutScaleAt at hl
  unfold chart_layer_update_layout
  simp only [hdirty, hx, hy, hn, if_false, Bool.true_eq_false, hs, hl]
  exact ⟨_, rfl⟩

theorem plotWidthU_eq (bounds : GSize) (iMargin : Int)
    (h0 : 0 ≤ bounds.w - 2 * iMargin) (h1 : bounds.w - 2 * iMargin < 4294967296) :
    (plotWidthU bounds iMargin : Int) = bounds.w - 2 * iMargin := by
  unfold plotWidthU toUnsigned
  rw [Int.emod_eq_of_lt h0 h1]
  exact Int.toNat_of_nonneg h0

theorem iSampling_of_le_width (typePlot : ChartPlotType) (bounds : GSize) (iMargin : Int) (n : Nat)
    (hw : bounds.w ≤ 32767) (hm : -2147483648 ≤ 2 * iMargin)
    (h1 : 1 ≤ n) (h2 : (n : Int) ≤ bounds.w - 2 * iMargin) :
    iSampling typePlot bounds iMargin n = some 1 := by
  have hW := plotWidthU_eq bounds iMargin (by omega) (by omega)
  unfold iSampling
  by_cases hc : typePlot = ChartPlotType.eSCATTER ∨ plotWidthU bounds iMargin > n
  · rw [if_pos hc]
  · rw [if_neg hc]
    have hle : plotWidthU bounds iMargin ≤ n := by
      have := not_or.1 hc
      omega
    have heq : plotWidthU bounds iMargin = n := by omega
    rw [if_neg (by omega), heq, Nat.div_self (by omega)]

theorem iSampling_pos (typePlot : ChartPlotType) (bounds : GSize) (iMargin : Int) (n s : Nat)
    (hs : iSampling typePlot bounds iMargin n = some s) : 1 ≤ s := by
  unfold iSampling at hs
  split at hs
  · cases hs; exact le_refl 1
  · rename_i hc
    split at hs
    · cases hs
    · rename_i hz
      cases hs
      have hle : plotWidthU bounds iMargin ≤ n := by
        have := not_or.1 hc
        omega
      exact (Nat.le_div_iff_mul_le (Nat.pos_of_ne_zero hz)).2 (by simpa using hle)

theorem mul_lt_of_lt_div {n s j : Nat} (hs : 1 ≤ s) (hj : j < n / s) : j * s < n := by
  have h1 : (j + 1) * s ≤ n := (Nat.le_div_iff_mul_le (by omega)).1 hj
  rw [Nat.add_mul] at h1
  omega

theorem length_sortOrderInit (xs : List ℚ) (n : Nat) : (sortOrderInit xs n).length = n := by
  simp [sortOrderInit]

theorem length_layoutSortOrder (t : ChartPlotType) (xs : List ℚ) (n : Nat) :
    (layoutSortOrder t xs n).length = n := by
  unfold layoutSortOrder qsort
  split
  · rw [List.length_insertionSort, length_sortOrderInit]
  · exact length_sortOrderInit xs n

theorem perm_layoutSortOrder (t : ChartPlotType) (xs : List ℚ) (n : Nat) :
    (layoutSortOrder t xs n).Perm (sortOrderInit xs n) := by
  unfold layoutSortOrder qsort
  split
  · exact List.perm_insertionSort _ _
  · exact List.Perm.refl _

theorem mem_sortOrderInit {xs : List ℚ} {n : Nat} {e : ChartSortHelper}
    (he : e ∈ sortOrderInit xs n) : e.index < n ∧ e.x_value = xs.getD e.index 0 := by
  unfold sortOrderInit at he
  obtain ⟨i, hi, rfl⟩ := List.mem_map.1 he
  exact ⟨List.mem_range.1 hi, rfl⟩

theorem mem_layoutSortOrder {t : ChartPlotType} {xs : List ℚ} {n : Nat} {e : ChartSortHelper}
    (he : e ∈ layoutSortOrder t xs n) : e.index < n ∧ e.x_value = xs.getD e.index 0 :=
  mem_sortOrderInit ((perm_layoutSortOrder t xs n).mem_iff.1 he)

theorem getD_mem_layoutSortOrder (t : ChartPlotType) (xs : List ℚ) (n i : Nat) (hi : i < n) :
    (layoutSortOrder t xs n).getD i default ∈ layoutSortOrder t xs n := by
  have hlen : i < (layoutSortOrder t xs n).length := by rw [length_layoutSortOrder]; exact hi
  rw [List.getD_eq_getElem _ _ hlen]
  exact List.getElem_mem _

theorem retainedIndex_lt (t : ChartPlotType) (xs : List ℚ) (n s j : Nat) (h : j * s < n) :
    retainedIndex t xs n s j < n :=
  (mem_layoutSortOrder (getD_mem_layoutSortOrder t xs n (j * s) h)).1

theorem retainedIndex_scatter (xs : List ℚ) (n j : Nat) (hj : j < n) :
    retainedIndex ChartPlotType.eSCATTER xs n 1 j = j := by
  unfold retainedIndex layoutSortOrder sortOrderInit
  simp [hj]

theorem map_index_sortOrderInit (xs : List ℚ) (n : Nat) :
    (sortOrderInit xs n).map ChartSortHelper.index = List.range n := by
  unfold sortOrderInit
  rw [List.map_map]
  exact List.map_id _

theorem map_retainedIndex_one (t : ChartPlotType) (xs : List ℚ) (n : Nat) :
    (List.range n).map (retainedIndex t xs n 1)
      = (layoutSortOrder t xs n).map ChartSortHelper.index := by
  apply List.ext_getElem
  · simp [length_layoutSortOrder]
  · intro i h1 h2
    have hi : i < (layoutSortOrder t xs n).length := by simpa using h2
    simp [retainedIndex, List.getElem?_eq_getElem hi]

theorem perm_retainedIndex_one (t : ChartPlotType) (xs : List ℚ) (n : Nat) :
    ((List.range n).map (retainedIndex t xs n 1)).Perm (List.range n) := by
  rw [map_retainedIndex_one, ← map_index_sortOrderInit xs n]
  exact (perm_layoutSortOrder t xs n).map _

theorem getD_map_strideIdx {β : Type} (f : Nat → β) (dflt : β) (n s j : Nat) (hs : 1 ≤ s)
    (hj : j * s < n) : ((strideIdx n s).map f).getD j dflt = f (j * s) := by
  rw [List.getD_eq_getElem?_getD, List.getElem?_map, strideIdx_getD n s j hs hj]
  rfl

theorem le_length_strideIdx (n s : Nat) (hs : 1 ≤ s) : n / s ≤ (strideIdx n s).length := by
  by_contra hlt
  push_neg at hlt
  have hj : (strideIdx n s).length * s < n := mul_lt_of_lt_div hs hlt
  have := strideIdx_getD n s _ hs hj
  rw [List.getElem?_eq_none (le_refl _)] at this
  cases this

/-! ## The sort order -/

theorem orderedInsert_congr {α : Type} (r r' : α → α → Prop) [DecidableRel r] [DecidableRel r']
    (a : α) : ∀ l : List α, (∀ b ∈ l, (r a b ↔ r' a b)) →
      l.orderedInsert r a = l.orderedInsert r' a := by
  intro l
  induction l with
  | nil => intro _; rfl
  | cons b l ih =>
    intro h
    have hb : r a b ↔ r' a b := h b (List.mem_cons_self _ _)
    have hl := ih (fun c hc => h c (List.mem_cons_of_mem _ hc))
    by_cases hr : r a b
    · simp [List.orderedInsert, hr, hb.1 hr]
    · have hr' : ¬ r' a b := fun h' => hr (hb.2 h')
      simp [List.orderedInsert, hr, hr', hl]

theorem insertionSort_congr {α : Type} (r r' : α → α → Prop) [DecidableRel r] [DecidableRel r'] :
    ∀ l : List α, (∀ a ∈ l, ∀ b ∈ l, (r a b ↔ r' a b)) →
      l.insertionSort r = l.insertionSort r' := by
  intro l
  induction l with
  | nil => intro _; rfl
  | cons a l ih =>
    intro h
    have hl := ih (fun x hx y hy => h x (List.mem_cons_of_mem _ hx) y (List.mem_cons_of_mem _ hy))
    rw [List.insertionSort, List.insertionSort, hl]
    apply orderedInsert_congr
    intro b hb
    have hb' : b ∈ l := (List.mem_insertionSort r').1 hb
    exact h a (List.mem_cons_self _ _) b (List.mem_cons_of_mem _ hb')

theorem toInt_one : toInt 1 = 1 := by simp [toInt]

/-- On two values that are equal or at least `1` apart, the sign of the
truncated difference is the sign of the difference. -/
theorem toInt_sub_le_zero_iff {u v : ℚ} (h : u = v ∨ 1 ≤ |u - v|) :
    toInt (u - v) ≤ 0 ↔ u ≤ v := by
  constructor
  · intro hle
    by_contra hgt
    push_neg at hgt
    rcases h with h | h
    · exact absurd h.le (not_le.2 hgt)
    · have hpos : 0 < u - v := sub_pos.2 hgt
      rw [abs_of_pos hpos] at h
      have := toInt_mono h
      rw [toInt_one] at this
      omega
  · intro hle
    have : u - v ≤ 0 := sub_nonpos.2 hle
    have := toInt_mono this
    rwa [toInt_zero] at this

theorem x_value_mem_of_mem_sortOrderInit {xs : List ℚ} {e : ChartSortHelper}
    (he : e ∈ sortOrderInit xs xs.length) : e.x_value ∈ xs := by
  obtain ⟨hi, hv⟩ := mem_sortOrderInit he
  rw [hv, List.getD_eq_getElem _ _ hi]
  exact List.getElem_mem _

/-- When the comparator is exact on the x-values, `sort_order` ends up sorted
by ascending x-value for every plot type but the scatter plot. -/
theorem sorted_layoutSortOrder (t : ChartPlotType) (xs : List ℚ) (n : Nat) (hlen : xs.length = n)
    (ht : t ≠ ChartPlotType.eSCATTER)
    (hexact : ∀ u ∈ xs, ∀ v ∈ xs, u = v ∨ 1 ≤ |u - v|) :
    (layoutSortOrder t xs n).Sorted (fun a b => a.x_value ≤ b.x_value) := by
  subst hlen
  unfold layoutSortOrder qsort
  rw [if_pos ht]
  rw [insertionSort_congr (fun a b => cmpChartSortHelper a b ≤ 0)
    (fun a b => a.x_value ≤ b.x_value)]
  · exact List.sorted_insertionSort _ _
  · intro a ha b hb
    exact toInt_sub_le_zero_iff (hexact _ (x_value_mem_of_mem_sortOrderInit ha)
      _ (x_value_mem_of_mem_sortOrderInit hb))

theorem x_value_getD_mono (t : ChartPlotType) (xs : List ℚ) (n : Nat) (hlen : xs.length = n)
    (ht : t ≠ ChartPlotType.eSCATTER)
    (hexact : ∀ u ∈ xs, ∀ v ∈ xs, u = v ∨ 1 ≤ |u - v|) (i k : Nat) (hik : i ≤ k)
    (hk : k < n) :
    ((layoutSortOrder t xs n).getD i default).x_value
      ≤ ((layoutSortOrder t xs n).getD k default).x_value := by
  have hl := length_layoutSortOrder t xs n
  have hk' : k < (layoutSortOrder t xs n).length := by rw [hl]; exact hk
  have hi' : i < (layoutSortOrder t xs n).length := lt_of_le_of_lt hik hk'
  rw [List.getD_eq_getElem _ _ hi', List.getD_eq_getElem _ _ hk']
  exact (sorted_layoutSortOrder t xs n hlen ht hexact).rel_get_of_le
    (show (⟨i, hi'⟩ : Fin _) ≤ ⟨k, hk'⟩ from hik)

theorem xPixel_mono (iMargin : Int) (sc : LayoutScale) (hsc : 0 ≤ sc.fXScale) {u v : ℚ}
    (h : u ≤ v) : xPixel iMargin sc u ≤ xPixel iMargin sc v := by
  unfold xPixel
  have : sc.fXScale * (u - sc.fMinX + sc.fMinXSep / 2)
      ≤ sc.fXScale * (v - sc.fMinX + sc.fMinXSep / 2) :=
    mul_le_mul_of_nonneg_left (by linarith) hsc
  have := toInt_mono this
  omega

/-! ## Termination of `closest_log10` -/

theorem closest_log10_up_isSome :
    ∀ (fuel : Nat) (num : ℚ) (log : Int), num < (fuel : ℚ) + 10 →
      (closest_log10_up (fuel + 1) num log).isSome = true := by
  intro fuel
  induction fuel with
  | zero =>
    intro num log h
    have : ¬ num > 10 := by simp at h; exact not_lt.2 h.le
    simp [closest_log10_up, this]
  | succ fuel ih =>
    intro num log h
    rw [closest_log10_up]
    by_cases hgt : num > 10
    · rw [if_pos hgt]
      apply ih
      push_cast at h
      linarith
    · rw [if_neg hgt]; rfl

theorem closest_log10_down_isSome :
    ∀ (fuel : Nat) (num : ℚ) (log : Int), 10 ≤ num * 10 ^ fuel →
      (closest_log10_down (fuel + 1) num log).isSome = true := by
  intro fuel
  induction fuel with
  | zero =>
    intro num log h
    have : ¬ num < 10 := by simp at h; exact not_lt.2 h
    simp [closest_log10_down, this]
  | succ fuel ih =>
    intro num log h
    rw [closest_log10_down]
    by_cases hlt : num < 10
    · rw [if_pos hlt]
      apply ih
      rw [pow_succ] at h
      linarith
    · rw [if_neg hlt]; rfl

theorem rat_le_natAbs_num (q : ℚ) (hq : 0 < q) : q ≤ (q.num.natAbs : ℚ) := by
  have hnum : 0 < q.num := Rat.num_pos.2 hq
  have hden : (1 : ℚ) ≤ (q.den : ℚ) := by exact_mod_cast q.den_pos
  have hq' : (q.num : ℚ) / (q.den : ℚ) = q := Rat.num_div_den q
  have : (q.num.natAbs : ℚ) = (q.num : ℚ) := by
    rw [Nat.cast_natAbs, abs_of_nonneg hnum.le]
  rw [this]
  calc q = (q.num : ℚ) / (q.den : ℚ) := hq'.symm
    _ ≤ (q.num : ℚ) / 1 := by
        apply div_le_div_of_nonneg_left _ one_pos hden
        exact_mod_cast hnum.le
    _ = (q.num : ℚ) := div_one _

theorem one_le_mul_den (q : ℚ) (hq : 0 < q) : 1 ≤ q * (q.den : ℚ) := by
  have hnum : 0 < q.num := Rat.num_pos.2 hq
  have h : q * (q.den : ℚ) = (q.num : ℚ) := Rat.mul_den_eq_num q
  rw [h]
  exact_mod_cast hnum

/-- The loop of `closest_log10` exits on every input other than `0`. -/
theorem closest_log10_isSome (num : ℚ) (h : num ≠ 0) : (closest_log10 num).isSome = true := by
  unfold closest_log10 closest_log10_fuel
  by_cases hneg : num < 0
  · rw [if_pos hneg]; rfl
  · rw [if_neg hneg]
    have hpos : 0 < num := lt_of_le_of_ne (not_lt.1 hneg) (Ne.symm h)
    by_cases hgt : num > 1
    · rw [if_pos hgt]
      apply closest_log10_up_isSome
      have := rat_le_natAbs_num num hpos
      push_cast
      have hd : (0 : ℚ) ≤ (num.den : ℚ) := by positivity
      linarith
    · rw [if_neg hgt]
      apply closest_log10_down_isSome
      have h1 := one_le_mul_den num hpos
      have h2 : ((num.den : ℚ)) ≤ 10 ^ num.den := by
        exact_mod_cast (Nat.lt_pow_self (by norm_num : 1 < 10) num.den).le
      have h3 : (10 : ℚ) ^ (num.num.natAbs + num.den + 1) = 10 ^ num.num.natAbs * 10 ^ num.den * 10 := by
        rw [pow_succ, pow_add]
      have h4 : (1 : ℚ) ≤ 10 ^ num.num.natAbs := one_le_pow₀ (by norm_num)
      rw [h3]
      have h5 : (0 : ℚ) < 10 ^ num.den := by positivity
      have h6 : 1 ≤ num * 10 ^ num.den := le_trans h1 (mul_le_mul_of_nonneg_left h2 hpos.le)
      have h7 : num * 10 ^ num.den ≤ num * (10 ^ num.num.natAbs * 10 ^ num.den) := by
        apply mul_le_mul_of_nonneg_left _ hpos.le
        exact le_mul_of_one_le_left h5.le h4
      nlinarith

/-- From `num = 0` the loop `while (num < 10) num = num * 10` never exits,
whatever the number of iterations allowed. -/
theorem closest_log10_down_zero : ∀ (fuel : Nat) (log : Int), closest_log10_down fuel 0 log = none := by
  intro fuel
  induction fuel with
  | zero => intro log; rfl
  | succ fuel ih =>
    intro log
    rw [closest_log10_down, if_pos (by norm_num), zero_mul]
    exact ih _

theorem closest_log10_fuel_zero (fuel : Nat) : closest_log10_fuel fuel 0 = none := by
  unfold closest_log10_fuel
  rw [if_neg (by norm_num), if_neg (by norm_num)]
  exact closest_log10_down_zero fuel 0

theorem closest_log10_zero : closest_log10 0 = none :=
  closest_log10_fuel_zero _

/-- With exact quotients and products, `closest_log10` fails to return exactly
on the argument `0`. -/
theorem closest_log10_eq_none_iff (num : ℚ) : closest_log10 num = none ↔ num = 0 := by
  constructor
  · intro h
    by_contra hne
    have := closest_log10_isSome num hne
    rw [h] at this
    cases this
  · intro h
    rw [h]
    exact closest_log10_zero

/-! ## The scans -/

theorem scanY_foldl_bounds (ys : List ℚ) : ∀ (idx : List Nat) (acc : YScan),
    (idx.foldl (scanYStep ys) acc).fMinY ≤ acc.fMinY ∧
    acc.fMaxY ≤ (idx.foldl (scanYStep ys) acc).fMaxY ∧
    ∀ i ∈ idx, (idx.foldl (scanYStep ys) acc).fMinY ≤ ys.getD i 0 ∧
      ys.getD i 0 ≤ (idx.foldl (scanYStep ys) acc).fMaxY := by
  intro idx
  induction idx with
  | nil => intro acc; simp
  | cons i rest ih =>
    intro acc
    obtain ⟨h1, h2, h3⟩ := ih (scanYStep ys acc i)
    have hmin : (scanYStep ys acc i).fMinY ≤ acc.fMinY ∧ (scanYStep ys acc i).fMinY ≤ ys.getD i 0 := by
      unfold scanYStep
      dsimp only
      split <;> constructor <;> linarith
    have hmax : acc.fMaxY ≤ (scanYStep ys acc i).fMaxY ∧ ys.getD i 0 ≤ (scanYStep ys acc i).fMaxY := by
      unfold scanYStep
      dsimp only
      split <;> constructor <;> linarith
    rw [List.foldl_cons]
    refine ⟨le_trans h1 hmin.1, le_trans hmax.1 h2, ?_⟩
    intro k hk
    rcases List.mem_cons.1 hk with hk | hk
    · subst hk
      exact ⟨le_trans h1 hmin.2, le_trans hmax.2 h2⟩
    · exact h3 k hk

theorem scanX_foldl_extrema (xs : List ℚ) (so : List ChartSortHelper) :
    ∀ (idx : List Nat) (acc : XScan) (accY : YScan),
      acc.fMaxX = accY.fMaxY → acc.fMinX = accY.fMinY →
      (idx.foldl (scanXStep xs so) acc).fMaxX = (idx.foldl (scanYStep xs) accY).fMaxY ∧
      (idx.foldl (scanXStep xs so) acc).fMinX = (idx.foldl (scanYStep xs) accY).fMinY := by
  intro idx
  induction idx with
  | nil => intro acc accY h1 h2; exact ⟨h1, h2⟩
  | cons i rest ih =>
    intro acc accY h1 h2
    rw [List.foldl_cons, List.foldl_cons]
    apply ih
    · simp only [scanXStep, scanYStep, h1]
    · simp only [scanXStep, scanYStep, h2]

theorem scanX_foldl_sep_nonneg (xs : List ℚ) (so : List ChartSortHelper) :
    ∀ (idx : List Nat) (acc : XScan), 0 ≤ acc.fMinXSep →
      (∀ i ∈ idx, i ≠ 0 → 0 ≤ sortedGap xs so i) →
      0 ≤ (idx.foldl (scanXStep xs so) acc).fMinXSep := by
  intro idx
  induction idx with
  | nil => intro acc h _; exact h
  | cons i rest ih =>
    intro acc h hg
    rw [List.foldl_cons]
    apply ih
    · unfold scanXStep
      dsimp only
      by_cases hi : i ≠ 0
      · rw [if_pos hi]
        split
        · exact hg i (List.mem_cons_self _ _) hi
        · exact h
      · rw [if_neg hi]; exact h
    · intro k hk hk0
      exact hg k (List.mem_cons_of_mem _ hk) hk0

theorem sortedGap_nonneg (t : ChartPlotType) (xs : List ℚ) (n : Nat) (hlen : xs.length = n)
    (ht : t ≠ ChartPlotType.eSCATTER)
    (hexact : ∀ u ∈ xs, ∀ v ∈ xs, u = v ∨ 1 ≤ |u - v|) (i : Nat) (hi : i < n) :
    0 ≤ sortedGap xs (layoutSortOrder t xs n) i := by
  unfold sortedGap
  have e0 := (mem_layoutSortOrder
    (getD_mem_layoutSortOrder t xs n (i - 1) (by omega))).2
  have e1 := (mem_layoutSortOrder (getD_mem_layoutSortOrder t xs n i hi)).2
  rw [← e0, ← e1]
  exact sub_nonneg.2 (x_value_getD_mono t xs n hlen ht hexact (i - 1) i (by omega) hi)

theorem mem_strideIdxAux_lt (n s : Nat) : ∀ (fuel i0 : Nat), ∀ i ∈ strideIdxAux n s fuel i0, i < n := by
  intro fuel
  induction fuel with
  | zero => intro i0 i hi; simp [strideIdxAux] at hi
  | succ fuel ih =>
    intro i0 i hi
    rw [strideIdxAux] at hi
    by_cases h : i0 < n
    · rw [if_pos h] at hi
      rcases List.mem_cons.1 hi with hi | hi
      · rw [hi]; exact h
      · exact ih _ i hi
    · rw [if_neg h] at hi
      cases hi

theorem mem_strideIdx_lt (n s : Nat) : ∀ i ∈ strideIdx n s, i < n :=
  mem_strideIdxAux_lt n s n 0

/-- On x-values that are pairwise equal or at least 1 apart, the bar separation
computed by the layout is not negative. -/
theorem layoutScaleAt_sep_nonneg (bounds : GSize) (d : ChartLayerData) (xs ys : List ℚ) (s : Nat)
    (hlenx : xs.length = d.iNumOrigPoints) (hne : d.typePlot ≠ ChartPlotType.eSCATTER)
    (hexact : ∀ u ∈ xs, ∀ v ∈ xs, u = v ∨ 1 ≤ |u - v|) :
    0 ≤ (layoutScaleAt bounds d xs ys s).fMinXSep := by
  unfold layoutScaleAt layoutScale
  dsimp only
  by_cases hb : d.typePlot ≠ ChartPlotType.eBAR
  · rw [if_pos hb]
  · rw [if_neg hb]
    unfold scanX
    apply scanX_foldl_sep_nonneg
    · dsimp only
      split
      · exact sortedGap_nonneg _ xs _ hlenx hne hexact 1 (by omega)
      · exact le_refl 0
    · intro i hi _
      exact sortedGap_nonneg _ xs _ hlenx hne hexact i (mem_strideIdx_lt _ _ i hi)

theorem toInt_abs_le {f : ℚ} {B : Int} (h : |f| ≤ (B : ℚ)) : -B ≤ toInt f ∧ toInt f ≤ B := by
  rw [abs_le] at h
  have a := toInt_mono h.1
  have b := toInt_mono h.2
  rw [show -(B : ℚ) = ((-B : Int) : ℚ) by push_cast; rfl, toInt_intCast] at a
  rw [toInt_intCast] at b
  exact ⟨a, b⟩

theorem layout_retained_points (bounds : GSize) (d d' : ChartLayerData)
    (xs ys : List ℚ) (s : Nat)
    (hdirty : d.bLayoutDirty = true) (hx : d.pXOrigData = some xs)
    (hy : d.pYOrigData = some ys) (hn : d.iNumOrigPoints ≠ 0)
    (hs : iSampling d.typePlot bounds d.iMargin d.iNumOrigPoints = some s)
    (hret : chart_layer_update_layout bounds d = some d') :
    d'.iNumPoints = d.iNumOrigPoints / s ∧
    (d'.iNumPoints ≤ d'.pXData.length ∧ d'.iNumPoints ≤ d'.pYData.length) ∧
    (∀ j, j < d'.iNumPoints →
      retainedIndex d.typePlot xs d.iNumOrigPoints s j < d.iNumOrigPoints ∧
      d'.pXData.getD j 0 = xPixel d.iMargin (layoutScaleAt bounds d xs ys s)
        (xs.getD (retainedIndex d.typePlot xs d.iNumOrigPoints s j) 0) ∧
      d'.pYData.getD j 0 = yPixel bounds d.iMargin (layoutScaleAt bounds d xs ys s)
        (ys.getD (retainedIndex d.typePlot xs d.iNumOrigPoints s j) 0)) := by
  obtain ⟨s', lg, hs', -, hnum, hpx, hpy⟩ := layout_spec bounds d d' xs ys hdirty hx hy hn hret
  rw [hs] at hs'
  cases hs'
  have hs1 : 1 ≤ s := iSampling_pos _ _ _ _ _ hs
  refine ⟨hnum, ⟨?_, ?_⟩, ?_⟩
  · rw [hnum, hpx, List.length_map]; exact le_length_strideIdx _ _ hs1
  · rw [hnum, hpy, List.length_map]; exact le_length_strideIdx _ _ hs1
  · intro j hj
    rw [hnum] at hj
    have hjs : j * s < d.iNumOrigPoints := mul_lt_of_lt_div hs1 hj
    refine ⟨retainedIndex_lt _ _ _ _ _ hjs, ?_, ?_⟩
    · rw [hpx, getD_map_strideIdx _ _ _ _ _ hs1 hjs]; rfl
    · rw [hpy, getD_map_strideIdx _ _ _ _ _ hs1 hjs]; rfl

/-- The count stored by a recompute that returns is the sampled count. -/
theorem layout_stores_sampledCount (bounds : GSize) (d d' : ChartLayerData) (xs ys : List ℚ)
    (hdirty : d.bLayoutDirty = true) (hx : d.pXOrigData = some xs)
    (hy : d.pYOrigData = some ys) (hn : d.iNumOrigPoints ≠ 0)
    (hret : chart_layer_update_layout bounds d = some d') :
    sampledCount d.typePlot bounds d.iMargin d.iNumOrigPoints = some d'.iNumPoints := by
  obtain ⟨s, lg, hs, -, hnum, -, -⟩ := layout_spec bounds d d' xs ys hdirty hx hy hn hret
  unfold sampledCount
  rw [hs, hnum]
  rfl

/-- The demo chart "Scatter chart" (50 points) is laid out with all 50 points,
in insertion order. -/
theorem scatter_demo_keeps_fifty_points :
    chart_layer_update_layout demoBounds (load_chart_4 chart_layer_create)
      = some (layoutResult demoBounds (load_chart_4 chart_layer_create)) ∧
    (layoutResult demoBounds (load_chart_4 chart_layer_create)).iNumPoints = 50 ∧
    (layoutResult demoBounds (load_chart_4 chart_layer_create)).pXData.length = 50 ∧
    (layoutResult demoBounds (load_chart_4 chart_layer_create)).pYData.length = 50 ∧
    (List.range 50).map
        (retainedIndex ChartPlotType.eSCATTER ((List.range 50).map (fun i => (i : ℚ))) 50 1)
      = List.range 50 := by
  decide!

theorem toInt_bounds {f : ℚ} {W : Int} (h0 : 0 ≤ f) (h1 : f ≤ (W : ℚ)) :
    0 ≤ toInt f ∧ toInt f ≤ W := by
  have a := toInt_mono h0
  rw [toInt_zero] at a
  have b := toInt_mono h1
  rw [toInt_intCast] at b
  exact ⟨a, b⟩

theorem scale_mul_bounds {W r t : ℚ} (hW : 0 ≤ W) (hr : 0 < r) (h0 : 0 ≤ t) (h1 : t ≤ r) :
    0 ≤ W / r * t ∧ W / r * t ≤ W := by
  have e : W / r * t = W * (t / r) := by field_simp
  rw [e]
  have h2 : 0 ≤ t / r := div_nonneg h0 hr.le
  have h3 : t / r ≤ 1 := (div_le_one hr).2 h1
  exact ⟨mul_nonneg hW h2, by nlinarith⟩

theorem exists_getD_of_mem {l : List ℚ} {u : ℚ} (h : u ∈ l) : ∃ i, i < l.length ∧ l.getD i 0 = u := by
  obtain ⟨i, hi, rfl⟩ := List.getElem_of_mem h
  exact ⟨i, hi, List.getD_eq_getElem _ _ hi⟩

/-- The scanned extrema enclose every value and are apart when two values differ. -/
theorem scanY_range (ys : List ℚ) (n : Nat) (hlen : ys.length = n) :
    (∀ j, j < n → (scanY ys (List.range n)).fMinY ≤ ys.getD j 0 ∧
      ys.getD j 0 ≤ (scanY ys (List.range n)).fMaxY) ∧
    ((∃ u ∈ ys, ∃ v ∈ ys, u ≠ v) →
      (scanY ys (List.range n)).fMinY < (scanY ys (List.range n)).fMaxY) := by
  have hb := scanY_foldl_bounds ys (List.range n) { fMaxY := ys.getD 0 0, fMinY := ys.getD 0 0 }
  have hall : ∀ j, j < n → (scanY ys (List.range n)).fMinY ≤ ys.getD j 0 ∧
      ys.getD j 0 ≤ (scanY ys (List.range n)).fMaxY :=
    fun j hj => hb.2.2 j (List.mem_range.2 hj)
  refine ⟨hall, ?_⟩
  rintro ⟨u, hu, v, hv, huv⟩
  obtain ⟨i, hi, rfl⟩ := exists_getD_of_mem hu
  obtain ⟨k, hk, rfl⟩ := exists_getD_of_mem hv
  have h1 := hall i (hlen ▸ hi)
  have h2 := hall k (hlen ▸ hk)
  rcases lt_or_gt_of_ne huv with h | h
  · exact lt_of_le_of_lt h1.1 (lt_of_lt_of_le h h2.2)
  · exact lt_of_le_of_lt h2.1 (lt_of_lt_of_le h h1.2)

theorem scanX_extrema_eq (xs : List ℚ) (so : List ChartSortHelper) (n : Nat) (idx : List Nat) :
    (scanX xs so n idx).fMaxX = (scanY xs idx).fMaxY ∧
    (scanX xs so n idx).fMinX = (scanY xs idx).fMinY :=
  scanX_foldl_extrema xs so idx _ _ rfl rfl

/-- With no pinned bounds, a count that does not exceed the plotting width and
a sort that is exact on the x-values (or a plot that is not a bar plot), the
recompute returns and every stored point lies inside the margins. -/
theorem points_fit_when_sort_exact (bounds : GSize) (d : ChartLayerData) (xs ys : List ℚ)
    (hdirty : d.bLayoutDirty = true) (hx : d.pXOrigData = some xs)
    (hy : d.pYOrigData = some ys) (hlenx : xs.length = d.iNumOrigPoints)
    (hleny : ys.length = d.iNumOrigPoints)
    (hw : bounds.w ≤ 32767)
    (h1 : 1 ≤ d.iNumOrigPoints)
    (h2 : (d.iNumOrigPoints : Int) ≤ bounds.w - 2 * d.iMargin)
    (hpin : d.fXMin = NOT_SET ∧ d.fXMax = NOT_SET ∧ d.fYMin = NOT_SET ∧ d.fYMax = NOT_SET)
    (hxne : ∃ u ∈ xs, ∃ v ∈ xs, u ≠ v) (hyne : ∃ u ∈ ys, ∃ v ∈ ys, u ≠ v)
    (hm0 : 0 ≤ d.iMargin) (hmw : 2 * d.iMargin < bounds.w) (hmh : 2 * d.iMargin < bounds.h)
    (hsort : d.typePlot ≠ ChartPlotType.eBAR ∨ ∀ u ∈ xs, ∀ v ∈ xs, u = v ∨ 1 ≤ |u - v|) :
    (∃ d', chart_layer_update_layout bounds d = some d') ∧
    ∀ d', chart_layer_update_layout bounds d = some d' →
      d'.iNumPoints = d.iNumOrigPoints ∧
      ∀ j, j < d'.iNumPoints →
        d.iMargin ≤ d'.pXData.getD j 0 ∧ d'.pXData.getD j 0 ≤ bounds.w - d.iMargin ∧
        d.iMargin ≤ d'.pYData.getD j 0 ∧ d'.pYData.getD j 0 ≤ bounds.h - d.iMargin := by
  have hn : d.iNumOrigPoints ≠ 0 := by omega
  have hs := iSampling_of_le_width d.typePlot bounds d.iMargin d.iNumOrigPoints hw (by omega) h1 h2
  obtain ⟨hfx, hfX, hfy, hfY⟩ := hpin
  -- the scales
  have hyr := scanY_range ys d.iNumOrigPoints hleny
  have hxr := scanY_range xs d.iNumOrigPoints hlenx
  have hxe := scanX_extrema_eq xs (layoutSortOrder d.typePlot xs d.iNumOrigPoints)
    d.iNumOrigPoints (List.range d.iNumOrigPoints)
  have hsep : 0 ≤ (layoutScaleAt bounds d xs ys 1).fMinXSep := by
    unfold layoutScaleAt layoutScale
    dsimp only
    by_cases hb : d.typePlot ≠ ChartPlotType.eBAR
    · rw [if_pos hb]
    · rw [if_neg hb]
      have hbar : d.typePlot = ChartPlotType.eBAR := not_not.1 hb
      have hexact := hsort.resolve_left hb
      have hne : d.typePlot ≠ ChartPlotType.eSCATTER := by rw [hbar]; decide
      unfold scanX
      apply scanX_foldl_sep_nonneg
      · dsimp only
        split
        · exact sortedGap_nonneg _ xs _ hlenx hne hexact 1 (by omega)
        · exact le_refl 0
      · intro i hi _
        rw [strideIdx_one] at hi
        exact sortedGap_nonneg _ xs _ hlenx hne hexact i (List.mem_range.1 hi)
  have eYmin : (layoutScaleAt bounds d xs ys 1).fMinY
      = (scanY ys (List.range d.iNumOrigPoints)).fMinY := by
    unfold layoutScaleAt layoutScale
    simp [hfy, strideIdx_one]
  have eYmax : (layoutScaleAt bounds d xs ys 1).fMaxY
      = (scanY ys (List.range d.iNumOrigPoints)).fMaxY := by
    unfold layoutScaleAt layoutScale
    simp [hfY, strideIdx_one]
  have eXmin : (layoutScaleAt bounds d xs ys 1).fMinX
      = (scanY xs (List.range d.iNumOrigPoints)).fMinY := by
    unfold layoutScaleAt layoutScale
    simp [hfx, strideIdx_one, hxe.2]
  have eXmax : (layoutScaleAt bounds d xs ys 1).fMaxX
      = (scanY xs (List.range d.iNumOrigPoints)).fMaxY := by
    unfold layoutScaleAt layoutScale
    simp [hfX, strideIdx_one, hxe.1]
  have eYs : (layoutScaleAt bounds d xs ys 1).fYScale
      = ((bounds.h - 2 * d.iMargin : Int) : ℚ)
        / ((layoutScaleAt bounds d xs ys 1).fMaxY - (layoutScaleAt bounds d xs ys 1).fMinY) := rfl
  have eXs : (layoutScaleAt bounds d xs ys 1).fXScale
      = ((bounds.w - 2 * d.iMargin : Int) : ℚ)
        / ((layoutScaleAt bounds d xs ys 1).fMaxX - (layoutScaleAt bounds d xs ys 1).fMinX
            + (layoutScaleAt bounds d xs ys 1).fMinXSep) := rfl
  have hylt := hyr.2 hyne
  have hxlt := hxr.2 hxne
  rw [← eYmin, ← eYmax] at hylt
  rw [← eXmin, ← eXmax] at hxlt
  have hH : (0 : ℚ) ≤ ((bounds.h - 2 * d.iMargin : Int) : ℚ) := by
    exact_mod_cast (by omega : (0 : Int) ≤ bounds.h - 2 * d.iMargin)
  have hW : (0 : ℚ) ≤ ((bounds.w - 2 * d.iMargin : Int) : ℚ) := by
    exact_mod_cast (by omega : (0 : Int) ≤ bounds.w - 2 * d.iMargin)
  constructor
  · have hne0 : (layoutScaleAt bounds d xs ys 1).fMaxY - (layoutScaleAt bounds d xs ys 1).fMinY ≠ 0 :=
      ne_of_gt (sub_pos.2 hylt)
    obtain ⟨lg, hlg⟩ := Option.isSome_iff_exists.1 (closest_log10_isSome _ hne0)
    exact layout_returns bounds d xs ys 1 lg hdirty hx hy hn hs hlg
  · intro d' hret
    obtain ⟨hnum, -, hpts⟩ := layout_retained_points bounds d d' xs ys 1 hdirty hx hy hn hs hret
    rw [Nat.div_one] at hnum
    refine ⟨hnum, ?_⟩
    intro j hj
    obtain ⟨hk, hpx, hpy⟩ := hpts j hj
    have hxk := hxr.1 _ hk
    have hyk := hyr.1 _ hk
    rw [← eXmin, ← eXmax] at hxk
    rw [← eYmin, ← eYmax] at hyk
    have bx := scale_mul_bounds hW
      (show (0 : ℚ) < (layoutScaleAt bounds d xs ys 1).fMaxX
          - (layoutScaleAt bounds d xs ys 1).fMinX + (layoutScaleAt bounds d xs ys 1).fMinXSep by
        linarith)
      (show (0 : ℚ) ≤ xs.getD (retainedIndex d.typePlot xs d.iNumOrigPoints 1 j) 0
          - (layoutScaleAt bounds d xs ys 1).fMinX
          + (layoutScaleAt bounds d xs ys 1).fMinXSep / 2 by linarith)
      (by linarith)
    have by' := scale_mul_bounds hH
      (show (0 : ℚ) < (layoutScaleAt bounds d xs ys 1).fMaxY
          - (layoutScaleAt bounds d xs ys 1).fMinY by linarith)
      (show (0 : ℚ) ≤ ys.getD (retainedIndex d.typePlot xs d.iNumOrigPoints 1 j) 0
          - (layoutScaleAt bounds d xs ys 1).fMinY by linarith)
      (by linarith)
    rw [← eXs] at bx
    rw [← eYs] at by'
    have tx := toInt_bounds bx.1 bx.2
    have ty := toInt_bounds by'.1 by'.2
    rw [hpx, hpy]
    unfold xPixel yPixel
    refine ⟨?_, ?_, ?_, ?_⟩ <;> omega

/-! ## The animation tick -/

theorem toInt_of_nonneg {f : ℚ} (h : 0 ≤ f) : toInt f = ⌊f⌋ := by
  unfold toInt; rw [if_pos h]

theorem toInt_mul_div (n t M : Nat) :
    toInt ((n : ℚ) * ((t : ℚ) / (M : ℚ))) = ((n * t / M : Nat) : Int) := by
  have h0 : (0 : ℚ) ≤ (n : ℚ) * ((t : ℚ) / (M : ℚ)) := by positivity
  rw [toInt_of_nonneg h0]
  have : (n : ℚ) * ((t : ℚ) / (M : ℚ)) = ((n * t : Nat) : ℚ) / (M : ℚ) := by
    push_cast; ring
  rw [this, Rat.floor_natCast_div_natCast]
  norm_cast

theorem toUnsigned_natCast (k : Nat) (hk : k < 4294967296) : toUnsigned (k : Int) = k := by
  unfold toUnsigned
  rw [Int.emod_eq_of_lt (by omega) (by omega)]
  simp

/-- With float arithmetic taken as exact, for every number of
points `n = iNumPoints` (an `unsigned int`) and every tick value `t` with
`0 <= t <= ANIMATION_NORMALIZED_MAX`, `animation_update` sets `iPointsToDraw`
to `n` when `t` is the maximum and to `floor (n * t / ANIMATION_NORMALIZED_MAX)`
otherwise, and changes no other field. -/
theorem animation_update_exact_floor (ANIMATION_NORMALIZED_MAX time_normalized : Nat)
    (d : ChartLayerData) (hmax : 0 < ANIMATION_NORMALIZED_MAX)
    (ht : time_normalized ≤ ANIMATION_NORMALIZED_MAX) (hn : d.iNumPoints < 4294967296) :
    animation_update ANIMATION_NORMALIZED_MAX time_normalized d =
      { d with
        iPointsToDraw :=
          if time_normalized = ANIMATION_NORMALIZED_MAX then d.iNumPoints
          else d.iNumPoints * time_normalized / ANIMATION_NORMALIZED_MAX } := by
  unfold animation_update
  by_cases h : time_normalized = ANIMATION_NORMALIZED_MAX
  · rw [if_pos h, if_pos h]
  · rw [if_neg h, if_neg h, toInt_mul_div, toUnsigned_natCast]
    calc d.iNumPoints * time_normalized / ANIMATION_NORMALIZED_MAX
        ≤ d.iNumPoints * ANIMATION_NORMALIZED_MAX / ANIMATION_NORMALIZED_MAX :=
          Nat.div_le_div_right (Nat.mul_le_mul_left _ ht)
      _ = d.iNumPoints := Nat.mul_div_cancel _ hmax
      _ < 4294967296 := hn

/-! ## Single precision rounding -/

theorem two_zpow_add_one (e : Int) : (2 : ℚ) ^ (e + 1) = 2 ^ e * 2 :=
  zpow_add_one₀ (by norm_num) e

theorem two_zpow_sub_one (e : Int) : (2 : ℚ) ^ e = 2 ^ (e - 1) * 2 := by
  have := two_zpow_add_one (e - 1)
  rwa [sub_add_cancel] at this

theorem binadeUp_le : ∀ (fuel : Nat) (a : ℚ) (e : Int), 1 ≤ a →
    (2 : ℚ) ^ (binadeUp fuel a e) ≤ a * 2 ^ e := by
  intro fuel
  induction fuel with
  | zero =>
    intro a e h
    have hpos : (0 : ℚ) < 2 ^ e := zpow_pos (by norm_num) e
    simp only [binadeUp]
    nlinarith
  | succ fuel ih =>
    intro a e h
    have hpos : (0 : ℚ) < 2 ^ e := zpow_pos (by norm_num) e
    rw [binadeUp]
    by_cases h2 : 2 ≤ a
    · rw [if_pos h2]
      have := ih (a / 2) (e + 1) (by linarith)
      rw [two_zpow_add_one] at this
      calc (2 : ℚ) ^ binadeUp fuel (a / 2) (e + 1) ≤ a / 2 * (2 ^ e * 2) := this
        _ = a * 2 ^ e := by ring
    · rw [if_neg h2]
      nlinarith

theorem binadeUp_lt : ∀ (fuel : Nat) (a : ℚ) (e : Int), a < 2 ^ fuel →
    a * 2 ^ e < (2 : ℚ) ^ (binadeUp fuel a e + 1) := by
  intro fuel
  induction fuel with
  | zero =>
    intro a e h
    have hpos : (0 : ℚ) < 2 ^ e := zpow_pos (by norm_num) e
    simp only [binadeUp]
    rw [two_zpow_add_one]
    rw [pow_zero] at h
    nlinarith
  | succ fuel ih =>
    intro a e h
    have hpos : (0 : ℚ) < 2 ^ e := zpow_pos (by norm_num) e
    rw [binadeUp]
    by_cases h2 : 2 ≤ a
    · rw [if_pos h2]
      have := ih (a / 2) (e + 1) (by rw [pow_succ] at h; linarith)
      rw [two_zpow_add_one e] at this
      calc a * 2 ^ e = a / 2 * (2 ^ e * 2) := by ring
        _ < _ := this
    · rw [if_neg h2, two_zpow_add_one]
      nlinarith

theorem binadeDown_le : ∀ (fuel : Nat) (a : ℚ) (e : Int), 0 < a → 1 ≤ a * 2 ^ fuel →
    (2 : ℚ) ^ (binadeDown fuel a e) ≤ a * 2 ^ e := by
  intro fuel
  induction fuel with
  | zero =>
    intro a e h0 h
    have hpos : (0 : ℚ) < 2 ^ e := zpow_pos (by norm_num) e
    simp only [binadeDown]
    rw [pow_zero, mul_one] at h
    nlinarith
  | succ fuel ih =>
    intro a e h0 h
    have hpos : (0 : ℚ) < 2 ^ e := zpow_pos (by norm_num) e
    rw [binadeDown]
    by_cases h1 : a < 1
    · rw [if_pos h1]
      have := ih (a * 2) (e - 1) (by linarith) (by rw [pow_succ] at h; linarith)
      calc (2 : ℚ) ^ binadeDown fuel (a * 2) (e - 1) ≤ a * 2 * 2 ^ (e - 1) := this
        _ = a * 2 ^ e := by rw [two_zpow_sub_one e]; ring
    · rw [if_neg h1]
      nlinarith

theorem binadeDown_lt : ∀ (fuel : Nat) (a : ℚ) (e : Int), a < 2 →
    a * 2 ^ e < (2 : ℚ) ^ (binadeDown fuel a e + 1) := by
  intro fuel
  induction fuel with
  | zero =>
    intro a e h
    have hpos : (0 : ℚ) < 2 ^ e := zpow_pos (by norm_num) e
    simp only [binadeDown]
    rw [two_zpow_add_one]
    nlinarith
  | succ fuel ih =>
    intro a e h
    have hpos : (0 : ℚ) < 2 ^ e := zpow_pos (by norm_num) e
    rw [binadeDown]
    by_cases h1 : a < 1
    · rw [if_pos h1]
      have := ih (a * 2) (e - 1) (by linarith)
      calc a * 2 ^ e = a * 2 * 2 ^ (e - 1) := by rw [two_zpow_sub_one e]; ring
        _ < _ := this
    · rw [if_neg h1, two_zpow_add_one]
      nlinarith

/-- The exponent found by `binade` is the binary exponent of a positive value. -/
theorem binade_spec (a : ℚ) (h : 0 < a) :
    (2 : ℚ) ^ binade a ≤ a ∧ a < 2 ^ (binade a + 1) := by
  unfold binade
  by_cases h1 : 1 ≤ a
  · rw [if_pos h1]
    have hle := binadeUp_le a.num.natAbs a 0 h1
    have hlt := binadeUp_lt a.num.natAbs a 0 (by
      have h2 : ((a.num.natAbs : Nat) : ℚ) < 2 ^ a.num.natAbs := by
        exact_mod_cast Nat.lt_two_pow a.num.natAbs
      exact lt_of_le_of_lt (rat_le_natAbs_num a h) h2)
    rw [zpow_zero, mul_one] at hle hlt
    exact ⟨hle, hlt⟩
  · rw [if_neg h1]
    have hle := binadeDown_le a.den a 0 h (by
      have h2 : ((a.den : Nat) : ℚ) ≤ 2 ^ a.den := by
        exact_mod_cast (Nat.lt_two_pow a.den).le
      exact le_trans (one_le_mul_den a h) (mul_le_mul_of_nonneg_left h2 h.le))
    have hlt := binadeDown_lt a.den a 0 (by linarith [not_le.1 h1])
    rw [zpow_zero, mul_one] at hle hlt
    exact ⟨hle, hlt⟩

theorem roundHalfEven_sub_le (q : ℚ) : |((roundHalfEven q : Int) : ℚ) - q| ≤ 1 / 2 := by
  have h1 : ((⌊q⌋ : Int) : ℚ) ≤ q := Int.floor_le q
  have h2 : q < ((⌊q⌋ : Int) : ℚ) + 1 := Int.lt_floor_add_one q
  unfold roundHalfEven
  rw [abs_le]
  split_ifs with a b c
  · constructor <;> linarith
  · push_cast; constructor <;> linarith
  · constructor <;> linarith
  · push_cast; constructor <;> linarith

theorem roundHalfEven_nonneg (q : ℚ) (h : 0 ≤ q) : 0 ≤ roundHalfEven q := by
  have h1 : (0 : Int) ≤ ⌊q⌋ := Int.floor_nonneg.2 h
  unfold roundHalfEven
  split_ifs <;> omega

/-- Rounding to binary32 has a relative error of at most `2^-24`. -/
theorem binary32_sub_le (q : ℚ) : |binary32 q - q| ≤ |q| / 16777216 := by
  unfold binary32
  by_cases h0 : q = 0
  · rw [if_pos h0, h0]; simp
  · rw [if_neg h0]
    have ha : 0 < |q| := abs_pos.2 h0
    obtain ⟨hle, -⟩ := binade_spec |q| ha
    have hu : (0 : ℚ) < 2 ^ (binade |q| - 23) := zpow_pos (by norm_num) _
    have hr := roundHalfEven_sub_le (|q| / 2 ^ (binade |q| - 23))
    have he : (2 : ℚ) ^ (binade |q|) = 2 ^ (binade |q| - 23) * 8388608 := by
      have : binade |q| = (binade |q| - 23) + 23 := by ring
      conv_lhs => rw [this]
      rw [zpow_add₀ (by norm_num : (2 : ℚ) ≠ 0)]
      norm_num
    set u := (2 : ℚ) ^ (binade |q| - 23) with hu_def
    set R := ((roundHalfEven (|q| / u) : Int) : ℚ) with hR
    have key : (if q < 0 then (-1 : ℚ) else 1) * R * u - q
        = (if q < 0 then (-1 : ℚ) else 1) * ((R - |q| / u) * u) := by
      by_cases hq : q < 0
      · rw [if_pos hq, abs_of_neg hq]
        field_simp
        ring
      · rw [if_neg hq, abs_of_nonneg (not_lt.1 hq)]
        field_simp
    rw [key, abs_mul, abs_mul, abs_of_pos hu]
    have hs : |(if q < 0 then (-1 : ℚ) else 1)| = 1 := by
      by_cases hq : q < 0 <;> simp [hq]
    rw [hs, one_mul]
    have : |R - |q| / u| * u ≤ 1 / 2 * u := mul_le_mul_of_nonneg_right hr hu.le
    have h8 : u * 8388608 ≤ |q| := by rw [← he]; exact hle
    linarith

theorem binary32_nonneg (q : ℚ) (h : 0 ≤ q) : 0 ≤ binary32 q := by
  unfold binary32
  by_cases h0 : q = 0
  · rw [if_pos h0]
  · rw [if_neg h0, if_neg (not_lt.2 h)]
    have hu : (0 : ℚ) < 2 ^ (binade |q| - 23) := zpow_pos (by norm_num) _
    have hr : (0 : ℚ) ≤ ((roundHalfEven (|q| / 2 ^ (binade |q| - 23)) : Int) : ℚ) := by
      exact_mod_cast roundHalfEven_nonneg _ (div_nonneg (abs_nonneg q) hu.le)
    positivity

theorem binary32_bounds (q : ℚ) (h : 0 ≤ q) :
    q * (1 - 1 / 16777216) ≤ binary32 q ∧ binary32 q ≤ q * (1 + 1 / 16777216) := by
  have := binary32_sub_le q
  rw [abs_of_nonneg h, abs_le] at this
  constructor <;> linarith [this.1, this.2]


theorem two_zpow_window_unique {a : ℚ} {e e' : Int}
    (h1 : (2 : ℚ) ^ e ≤ a) (h2 : a < 2 ^ (e + 1))
    (h1' : (2 : ℚ) ^ e' ≤ a) (h2' : a < 2 ^ (e' + 1)) : e' = e := by
  have hmono : ∀ x y : Int, x ≤ y → (2 : ℚ) ^ x ≤ 2 ^ y :=
    fun x y hxy => zpow_le_zpow_right₀ (by norm_num) hxy
  by_contra hne
  rcases lt_or_gt_of_ne hne with h | h
  · have := hmono (e' + 1) e (by omega)
    linarith
  · have := hmono (e + 1) e' (by omega)
    linarith

theorem binade_eq {a : ℚ} {e : Int} (h1 : (2 : ℚ) ^ e ≤ a) (h2 : a < 2 ^ (e + 1)) :
    binade a = e := by
  have ha : 0 < a := lt_of_lt_of_le (zpow_pos (by norm_num) e) h1
  obtain ⟨b1, b2⟩ := binade_spec a ha
  exact two_zpow_window_unique h1 h2 b1 b2

theorem binade_mono {a b : ℚ} (ha : 0 < a) (hab : a ≤ b) : binade a ≤ binade b := by
  obtain ⟨a1, -⟩ := binade_spec a ha
  obtain ⟨-, b2⟩ := binade_spec b (lt_of_lt_of_le ha hab)
  by_contra h
  have : (2 : ℚ) ^ (binade b + 1) ≤ 2 ^ binade a :=
    zpow_le_zpow_right₀ (by norm_num) (by omega)
  linarith

theorem roundHalfEven_intCast (m : Int) : roundHalfEven (m : ℚ) = m := by
  unfold roundHalfEven
  rw [Int.floor_intCast]
  simp

theorem roundHalfEven_bounds (q : ℚ) : ⌊q⌋ ≤ roundHalfEven q ∧ roundHalfEven q ≤ ⌊q⌋ + 1 := by
  unfold roundHalfEven
  split_ifs <;> omega

theorem roundHalfEven_mono {a b : ℚ} (h : a ≤ b) : roundHalfEven a ≤ roundHalfEven b := by
  have hf : ⌊a⌋ ≤ ⌊b⌋ := Int.floor_le_floor h
  rcases lt_or_eq_of_le hf with hlt | heq
  · have := (roundHalfEven_bounds a).2
    have := (roundHalfEven_bounds b).1
    omega
  · unfold roundHalfEven
    rw [heq]
    have hab : a - ⌊b⌋ ≤ b - ⌊b⌋ := by linarith
    split_ifs <;> first | omega | linarith

theorem binary32_of_pos {q : ℚ} (h : 0 < q) :
    binary32 q = ((roundHalfEven (q / (2 : ℚ) ^ (binade q - 23)) : Int) : ℚ)
      * (2 : ℚ) ^ (binade q - 23) := by
  unfold binary32
  rw [if_neg (ne_of_gt h), if_neg (not_lt.2 h.le), abs_of_pos h, one_mul]

theorem two_zpow_sub_23 (e : Int) : (2 : ℚ) ^ e = 2 ^ (e - 23) * 8388608 := by
  have : e = (e - 23) + 23 := by ring
  conv_lhs => rw [this]
  rw [zpow_add₀ (by norm_num : (2 : ℚ) ≠ 0)]
  norm_num

/-- The scaled significand of a positive value lies in `[2^23, 2^24)`. -/
theorem significand_bounds {q : ℚ} (h : 0 < q) :
    (8388608 : ℚ) ≤ q / (2 : ℚ) ^ (binade q - 23) ∧ q / (2 : ℚ) ^ (binade q - 23) < 16777216 := by
  obtain ⟨b1, b2⟩ := binade_spec q h
  have hu : (0 : ℚ) < 2 ^ (binade q - 23) := zpow_pos (by norm_num) _
  rw [two_zpow_sub_23 (binade q)] at b1
  rw [two_zpow_add_one, two_zpow_sub_23 (binade q)] at b2
  constructor
  · rw [le_div_iff₀ hu]; linarith
  · rw [div_lt_iff₀ hu]; linarith

theorem roundHalfEven_significand {q : ℚ} (h : 0 < q) :
    8388608 ≤ roundHalfEven (q / (2 : ℚ) ^ (binade q - 23)) ∧
    roundHalfEven (q / (2 : ℚ) ^ (binade q - 23)) ≤ 16777216 := by
  obtain ⟨s1, s2⟩ := significand_bounds h
  have a := roundHalfEven_mono s1
  have b := roundHalfEven_mono s2.le
  have e1 : roundHalfEven (8388608 : ℚ) = 8388608 := by
    have := roundHalfEven_intCast 8388608
    simpa using this
  have e2 : roundHalfEven (16777216 : ℚ) = 16777216 := by
    have := roundHalfEven_intCast 16777216
    simpa using this
  rw [e1] at a
  rw [e2] at b
  exact ⟨a, b⟩

/-- A value with a 24 bit significand is a binary32 number. -/
theorem binary32_of_significand (m e : Int) (h1 : 8388608 ≤ m) (h2 : m < 16777216) :
    binary32 ((m : ℚ) * 2 ^ (e - 23)) = (m : ℚ) * 2 ^ (e - 23) := by
  have hu : (0 : ℚ) < 2 ^ (e - 23) := zpow_pos (by norm_num) _
  have hm1 : (8388608 : ℚ) ≤ (m : ℚ) := by exact_mod_cast h1
  have hm2 : (m : ℚ) < 16777216 := by exact_mod_cast h2
  have hpos : (0 : ℚ) < (m : ℚ) * 2 ^ (e - 23) := by positivity
  have hb : binade ((m : ℚ) * 2 ^ (e - 23)) = e := by
    apply binade_eq
    · rw [two_zpow_sub_23 e]; nlinarith
    · rw [two_zpow_add_one, two_zpow_sub_23 e]; nlinarith
  rw [binary32_of_pos hpos, hb, mul_div_assoc, div_self (ne_of_gt hu), mul_one,
    roundHalfEven_intCast]

/-- Rounding is monotone on positive values. -/
theorem binary32_mono {a b : ℚ} (ha : 0 < a) (hab : a ≤ b) : binary32 a ≤ binary32 b := by
  have hb : 0 < b := lt_of_lt_of_le ha hab
  have he := binade_mono ha hab
  rw [binary32_of_pos ha, binary32_of_pos hb]
  have hua : (0 : ℚ) < 2 ^ (binade a - 23) := zpow_pos (by norm_num) _
  have hub : (0 : ℚ) < 2 ^ (binade b - 23) := zpow_pos (by norm_num) _
  rcases lt_or_eq_of_le he with hlt | heq
  · have ra := (roundHalfEven_significand ha).2
    have rb := (roundHalfEven_significand hb).1
    have ra' : ((roundHalfEven (a / 2 ^ (binade a - 23)) : Int) : ℚ) ≤ 16777216 := by
      exact_mod_cast ra
    have rb' : (8388608 : ℚ) ≤ ((roundHalfEven (b / 2 ^ (binade b - 23)) : Int) : ℚ) := by
      exact_mod_cast rb
    have hstep : (2 : ℚ) ^ (binade a + 1) ≤ 2 ^ binade b :=
      zpow_le_zpow_right₀ (by norm_num) (by omega)
    rw [two_zpow_add_one, two_zpow_sub_23 (binade a), two_zpow_sub_23 (binade b)] at hstep
    calc ((roundHalfEven (a / 2 ^ (binade a - 23)) : Int) : ℚ) * 2 ^ (binade a - 23)
        ≤ 16777216 * 2 ^ (binade a - 23) := mul_le_mul_of_nonneg_right ra' hua.le
      _ ≤ 8388608 * 2 ^ (binade b - 23) := by linarith
      _ ≤ _ := mul_le_mul_of_nonneg_right rb' hub.le
  · rw [heq]
    apply mul_le_mul_of_nonneg_right _ hub.le
    have : a / 2 ^ (binade b - 23) ≤ b / 2 ^ (binade b - 23) :=
      div_le_div_of_nonneg_right hab hub.le
    exact_mod_cast roundHalfEven_mono this

/-- A positive binary32 number has an integer significand in `[2^23, 2^24)`. -/
theorem significand_of_binary32 {v : ℚ} (h : 0 < v) (hv : binary32 v = v) :
    ∃ m : Int, 8388608 ≤ m ∧ m < 16777216 ∧ v = (m : ℚ) * 2 ^ (binade v - 23) := by
  have hu : (0 : ℚ) < 2 ^ (binade v - 23) := zpow_pos (by norm_num) _
  rw [binary32_of_pos h] at hv
  obtain ⟨s1, s2⟩ := significand_bounds h
  have hm : ((roundHalfEven (v / 2 ^ (binade v - 23)) : Int) : ℚ) = v / 2 ^ (binade v - 23) := by
    rw [eq_div_iff (ne_of_gt hu)]; exact hv
  refine ⟨roundHalfEven (v / 2 ^ (binade v - 23)), ?_, ?_, hv.symm⟩
  · have : (8388608 : ℚ) ≤ ((roundHalfEven (v / 2 ^ (binade v - 23)) : Int) : ℚ) := by
      rw [hm]; exact s1
    exact_mod_cast this
  · have : ((roundHalfEven (v / 2 ^ (binade v - 23)) : Int) : ℚ) < 16777216 := by
      rw [hm]; exact s2
    exact_mod_cast this

/-- Rounding twice is rounding once. -/
theorem binary32_idem {q : ℚ} (h : 0 < q) : binary32 (binary32 q) = binary32 q := by
  obtain ⟨r1, r2⟩ := roundHalfEven_significand h
  rw [binary32_of_pos h]
  rcases lt_or_eq_of_le r2 with hlt | heq
  · exact binary32_of_significand _ _ r1 hlt
  · rw [heq]
    have e : ((16777216 : Int) : ℚ) * 2 ^ (binade q - 23)
        = ((8388608 : Int) : ℚ) * 2 ^ ((binade q + 1) - 23) := by
      have : binade q + 1 - 23 = (binade q - 23) + 1 := by ring
      rw [this, two_zpow_add_one]
      push_cast
      ring
    rw [e]
    exact binary32_of_significand _ _ (by norm_num) (by norm_num)

/-- Between a binary32 number `p` and the next one there is none. -/
theorem binary32_gap {p v : ℚ} (hp0 : 0 < p) (hp : binary32 p = p) (hv : binary32 v = v)
    (hpv : p < v) : p + 2 ^ (binade p - 23) ≤ v := by
  have hv0 : 0 < v := lt_trans hp0 hpv
  obtain ⟨mp, mp1, mp2, ep⟩ := significand_of_binary32 hp0 hp
  obtain ⟨mv, mv1, mv2, ev⟩ := significand_of_binary32 hv0 hv
  have he := binade_mono hp0 hpv.le
  have hup : (0 : ℚ) < 2 ^ (binade p - 23) := zpow_pos (by norm_num) _
  rcases lt_or_eq_of_le he with hlt | heq
  · obtain ⟨v1, -⟩ := binade_spec v hv0
    have hstep : (2 : ℚ) ^ (binade p + 1) ≤ 2 ^ binade v :=
      zpow_le_zpow_right₀ (by norm_num) (by omega)
    rw [two_zpow_add_one, two_zpow_sub_23 (binade p)] at hstep
    have : (mp : ℚ) + 1 ≤ 16777216 := by exact_mod_cast (by omega : mp + 1 ≤ 16777216)
    have h3 : ((mp : ℚ) + 1) * 2 ^ (binade p - 23) ≤ 16777216 * 2 ^ (binade p - 23) :=
      mul_le_mul_of_nonneg_right this hup.le
    have h4 : p + 2 ^ (binade p - 23) = ((mp : ℚ) + 1) * 2 ^ (binade p - 23) := by
      rw [add_mul, one_mul, ← ep]
    rw [h4]
    linarith
  · rw [← heq] at ev
    have hlt : (mp : ℚ) * 2 ^ (binade p - 23) < (mv : ℚ) * 2 ^ (binade p - 23) := by
      rw [← ep, ← ev]; exact hpv
    have hm : (mp : ℚ) < (mv : ℚ) := lt_of_mul_lt_mul_right hlt hup.le
    have hm' : mp + 1 ≤ mv := by
      have : mp < mv := by exact_mod_cast hm
      omega
    have hm'' : (mp : ℚ) + 1 ≤ (mv : ℚ) := by exact_mod_cast hm'
    have h4 : p + 2 ^ (binade p - 23) = ((mp : ℚ) + 1) * 2 ^ (binade p - 23) := by
      rw [add_mul, one_mul, ← ep]
    rw [h4, ev]
    exact mul_le_mul_of_nonneg_right hm'' hup.le


/-- Up to `10^9` every power of ten is a binary32 number, and a tenth of its
successor is rounded to a number above the next lower power. -/
theorem binary32_powers_of_ten (k : Nat) (hk : k ≤ 8) :
    binary32 ((10 : ℚ) ^ (k + 1)) = (10 : ℚ) ^ (k + 1) ∧
    (10 : ℚ) ^ k
      < binary32 (((10 : ℚ) ^ (k + 1) + 2 ^ (binade ((10 : ℚ) ^ (k + 1)) - 23)) / 10) := by
  interval_cases k <;> decide!

/-- In single precision the upper loop of `closest_log10`, started on a binary32
number in `(10^k, 10^(k+1)]` with `k ≤ 9`, makes exactly `k` divisions. -/
theorem closest_log10_up_rounded_spec : ∀ (k : Nat), k ≤ 9 → ∀ (v : ℚ), binary32 v = v →
    (10 : ℚ) ^ k < v → v ≤ (10 : ℚ) ^ (k + 1) → ∀ (fuel : Nat) (log : Int), k < fuel →
      closest_log10_up_rounded binary32 fuel v log = some (log + k) := by
  intro k
  induction k with
  | zero =>
    intro _ v _ _ h2 fuel log hf
    obtain ⟨f, rfl⟩ := Nat.exists_eq_succ_of_ne_zero (by omega : fuel ≠ 0)
    rw [closest_log10_up_rounded, if_neg (by rw [pow_one] at h2; exact not_lt.2 h2)]
    simp
  | succ k ih =>
    intro hk v hv h1 h2 fuel log hf
    obtain ⟨f, rfl⟩ := Nat.exists_eq_succ_of_ne_zero (by omega : fuel ≠ 0)
    have hp1 : (1 : ℚ) ≤ (10 : ℚ) ^ k := one_le_pow₀ (by norm_num)
    have hp : (10 : ℚ) ^ (k + 1) = 10 ^ k * 10 := pow_succ 10 k
    have hpp : (10 : ℚ) ^ (k + 1 + 1) = 10 ^ (k + 1) * 10 := pow_succ 10 (k + 1)
    have hv10 : v > 10 := by rw [hp] at h1; linarith
    have hv0 : 0 < v := by linarith
    obtain ⟨hA, hB⟩ := binary32_powers_of_ten k (by omega)
    have hP0 : (0 : ℚ) < (10 : ℚ) ^ (k + 1) := by positivity
    rw [closest_log10_up_rounded, if_pos hv10]
    have hgap := binary32_gap hP0 hA hv h1
    have hu : (0 : ℚ) < 2 ^ (binade ((10 : ℚ) ^ (k + 1)) - 23) := zpow_pos (by norm_num) _
    have hlow : (10 : ℚ) ^ k < binary32 (v / 10) := by
      have hc0 : (0 : ℚ) < ((10 : ℚ) ^ (k + 1) + 2 ^ (binade ((10 : ℚ) ^ (k + 1)) - 23)) / 10 := by
        positivity
      have := binary32_mono hc0 (div_le_div_of_nonneg_right hgap (by norm_num : (0 : ℚ) ≤ 10))
      exact lt_of_lt_of_le hB this
    have hupp : binary32 (v / 10) ≤ (10 : ℚ) ^ (k + 1) := by
      have h3 : v / 10 ≤ (10 : ℚ) ^ (k + 1) := by
        rw [div_le_iff₀ (by norm_num : (0 : ℚ) < 10)]
        rw [hpp] at h2
        exact h2
      have := binary32_mono (by positivity : (0 : ℚ) < v / 10) h3
      rwa [hA] at this
    have := ih (by omega) (binary32 (v / 10)) (binary32_idem (by positivity)) hlow hupp f
      (log + 1) (by omega)
    rw [this]
    congr 1
    push_cast
    ring

theorem closest_log10_up_rounded_id : ∀ (fuel : Nat) (num : ℚ) (log : Int),
    closest_log10_up_rounded id fuel num log = closest_log10_up fuel num log := by
  intro fuel
  induction fuel with
  | zero => intro num log; rfl
  | succ fuel ih =>
    intro num log
    rw [closest_log10_up_rounded, closest_log10_up, ih]
    rfl

theorem closest_log10_down_rounded_id : ∀ (fuel : Nat) (num : ℚ) (log : Int),
    closest_log10_down_rounded id fuel num log = closest_log10_down fuel num log := by
  intro fuel
  induction fuel with
  | zero => intro num log; rfl
  | succ fuel ih =>
    intro num log
    rw [closest_log10_down_rounded, closest_log10_down, ih]
    rfl

/-- With the identity for the rounding, the rounded function is the exact one. -/
theorem closest_log10_rounded_id (num : ℚ) : closest_log10_rounded id num = closest_log10 num := by
  unfold closest_log10_rounded closest_log10 closest_log10_fuel
  rw [closest_log10_up_rounded_id, closest_log10_down_rounded_id]

/-- Beyond `10^10` the rounding of the quotients changes the result: at the
binary32 number nearest to `10^14` the single-precision loop returns 13 where
the exact one returns 14, and at the one nearest to `10^17` it returns 17
where the exact one returns 16. -/
theorem closest_log10_rounding_changes_result :
    binary32 100000000376832 = 100000000376832 ∧
    closest_log10_rounded binary32 100000000376832 = some 13 ∧
    closest_log10 100000000376832 = some 14 ∧
    binary32 99999998430674944 = 99999998430674944 ∧
    closest_log10_rounded binary32 99999998430674944 = some 17 ∧
    closest_log10 99999998430674944 = some 16 := by
  decide!

/-- The single-precision product of the animation tick lies within 1 of the
exact quotient `n * t / M`, for up to `2^20` points. -/
theorem rounded_tick_close (n t M : Nat) (hM : 0 < M) (ht : t ≤ M) (hn : n ≤ 1048576) :
    0 ≤ binary32 (binary32 (n : ℚ) * binary32 (binary32 (t : ℚ) / binary32 (M : ℚ))) ∧
    ((n * t : Nat) : ℚ) / (M : ℚ) - 1
      < binary32 (binary32 (n : ℚ) * binary32 (binary32 (t : ℚ) / binary32 (M : ℚ))) ∧
    binary32 (binary32 (n : ℚ) * binary32 (binary32 (t : ℚ) / binary32 (M : ℚ)))
      < ((n * t : Nat) : ℚ) / (M : ℚ) + 1 := by
  have hn0 : (0 : ℚ) ≤ (n : ℚ) := Nat.cast_nonneg n
  have ht0 : (0 : ℚ) ≤ (t : ℚ) := Nat.cast_nonneg t
  have hM0 : (0 : ℚ) < (M : ℚ) := by exact_mod_cast hM
  have htM : (t : ℚ) ≤ (M : ℚ) := by exact_mod_cast ht
  have hnB : (n : ℚ) ≤ 1048576 := by exact_mod_cast hn
  obtain ⟨a1, a2⟩ := binary32_bounds (t : ℚ) ht0
  obtain ⟨b1, b2⟩ := binary32_bounds (M : ℚ) hM0.le
  obtain ⟨n1, n2⟩ := binary32_bounds (n : ℚ) hn0
  have a0 := binary32_nonneg (t : ℚ) ht0
  have nn0 := binary32_nonneg (n : ℚ) hn0
  set a := binary32 (t : ℚ) with ha
  set b := binary32 (M : ℚ) with hb
  set nn := binary32 (n : ℚ) with hnn
  have b0 : 0 < b := by
    have : (0 : ℚ) < (M : ℚ) * (1 - 1 / 16777216) := by
      apply mul_pos hM0; norm_num
    linarith
  have r0 : 0 ≤ a / b := div_nonneg a0 b0.le
  have rb : a / b * b = a := div_mul_cancel₀ a (ne_of_gt b0)
  obtain ⟨c1, c2⟩ := binary32_bounds (a / b) r0
  have c0 := binary32_nonneg (a / b) r0
  set r := a / b with hr
  set c := binary32 r with hc
  have m0 : 0 ≤ nn * c := mul_nonneg nn0 c0
  obtain ⟨p1, p2⟩ := binary32_bounds (nn * c) m0
  have p0 := binary32_nonneg (nn * c) m0
  set p := binary32 (nn * c) with hp
  -- the quotient against the exact bounds
  have hrU : r * ((M : ℚ) * (1 - 1 / 16777216)) ≤ (t : ℚ) * (1 + 1 / 16777216) := by
    calc r * ((M : ℚ) * (1 - 1 / 16777216)) ≤ r * b := mul_le_mul_of_nonneg_left b1 r0
      _ = a := rb
      _ ≤ _ := a2
  have hrL : (t : ℚ) * (1 - 1 / 16777216) ≤ r * ((M : ℚ) * (1 + 1 / 16777216)) := by
    calc (t : ℚ) * (1 - 1 / 16777216) ≤ a := a1
      _ = r * b := rb.symm
      _ ≤ _ := mul_le_mul_of_nonneg_left b2 r0
  -- the product
  have hmU : nn * c ≤ (n : ℚ) * (1 + 1 / 16777216) * (r * (1 + 1 / 16777216)) :=
    mul_le_mul n2 c2 c0 (by positivity)
  have hmL : (n : ℚ) * (1 - 1 / 16777216) * (r * (1 - 1 / 16777216)) ≤ nn * c :=
    mul_le_mul n1 c1 (by apply mul_nonneg r0; norm_num) nn0
  have hpU : p ≤ (n : ℚ) * r * (1 + 1 / 16777216) ^ 3 := by
    calc p ≤ nn * c * (1 + 1 / 16777216) := p2
      _ ≤ (n : ℚ) * (1 + 1 / 16777216) * (r * (1 + 1 / 16777216)) * (1 + 1 / 16777216) :=
        mul_le_mul_of_nonneg_right hmU (by norm_num)
      _ = _ := by ring
  have hpL : (n : ℚ) * r * (1 - 1 / 16777216) ^ 3 ≤ p := by
    calc (n : ℚ) * r * (1 - 1 / 16777216) ^ 3
        = (n : ℚ) * (1 - 1 / 16777216) * (r * (1 - 1 / 16777216)) * (1 - 1 / 16777216) := by
          ring
      _ ≤ nn * c * (1 - 1 / 16777216) := mul_le_mul_of_nonneg_right hmL (by norm_num)
      _ ≤ p := p1
  have hnt : (n : ℚ) * (t : ℚ) ≤ 1048576 * (M : ℚ) := mul_le_mul hnB htM ht0 (by norm_num)
  have hnt0 : (0 : ℚ) ≤ (n : ℚ) * (t : ℚ) := mul_nonneg hn0 ht0
  -- upper bound times M
  have hU : p * (M : ℚ) * (1 - 1 / 16777216) ≤ (n : ℚ) * (t : ℚ) * (1 + 1 / 16777216) ^ 4 := by
    calc p * (M : ℚ) * (1 - 1 / 16777216)
        ≤ (n : ℚ) * r * (1 + 1 / 16777216) ^ 3 * (M : ℚ) * (1 - 1 / 16777216) := by
          apply mul_le_mul_of_nonneg_right _ (by norm_num)
          exact mul_le_mul_of_nonneg_right hpU hM0.le
      _ = (n : ℚ) * (1 + 1 / 16777216) ^ 3 * (r * ((M : ℚ) * (1 - 1 / 16777216))) := by ring
      _ ≤ (n : ℚ) * (1 + 1 / 16777216) ^ 3 * ((t : ℚ) * (1 + 1 / 16777216)) :=
        mul_le_mul_of_nonneg_left hrU (by positivity)
      _ = _ := by ring
  have hL : (n : ℚ) * (t : ℚ) * (1 - 1 / 16777216) ^ 4 ≤ p * (M : ℚ) * (1 + 1 / 16777216) := by
    calc (n : ℚ) * (t : ℚ) * (1 - 1 / 16777216) ^ 4
        = (n : ℚ) * (1 - 1 / 16777216) ^ 3 * ((t : ℚ) * (1 - 1 / 16777216)) := by ring
      _ ≤ (n : ℚ) * (1 - 1 / 16777216) ^ 3 * (r * ((M : ℚ) * (1 + 1 / 16777216))) :=
        mul_le_mul_of_nonneg_left hrL (by apply mul_nonneg hn0; norm_num)
      _ = (n : ℚ) * r * (1 - 1 / 16777216) ^ 3 * (M : ℚ) * (1 + 1 / 16777216) := by ring
      _ ≤ p * (M : ℚ) * (1 + 1 / 16777216) := by
          apply mul_le_mul_of_nonneg_right _ (by norm_num)
          exact mul_le_mul_of_nonneg_right hpL hM0.le
  have kU : ((1 : ℚ) + 1 / 16777216) ^ 4 ≤ (1 + 6 / 16777216) * (1 - 1 / 16777216) := by
    norm_num
  have kL : ((1 : ℚ) - 6 / 16777216) * (1 + 1 / 16777216) ≤ (1 - 1 / 16777216) ^ 4 := by
    norm_num
  have hU2 : p * (M : ℚ) ≤ (n : ℚ) * (t : ℚ) * (1 + 6 / 16777216) := by
    have h1 : p * (M : ℚ) * (1 - 1 / 16777216)
        ≤ (n : ℚ) * (t : ℚ) * (1 + 6 / 16777216) * (1 - 1 / 16777216) := by
      calc p * (M : ℚ) * (1 - 1 / 16777216) ≤ (n : ℚ) * (t : ℚ) * (1 + 1 / 16777216) ^ 4 := hU
        _ ≤ (n : ℚ) * (t : ℚ) * ((1 + 6 / 16777216) * (1 - 1 / 16777216)) :=
          mul_le_mul_of_nonneg_left kU hnt0
        _ = _ := by ring
    exact le_of_mul_le_mul_right h1 (by norm_num)
  have hL2 : (n : ℚ) * (t : ℚ) * (1 - 6 / 16777216) ≤ p * (M : ℚ) := by
    have h1 : (n : ℚ) * (t : ℚ) * (1 - 6 / 16777216) * (1 + 1 / 16777216)
        ≤ p * (M : ℚ) * (1 + 1 / 16777216) := by
      calc (n : ℚ) * (t : ℚ) * (1 - 6 / 16777216) * (1 + 1 / 16777216)
          = (n : ℚ) * (t : ℚ) * ((1 - 6 / 16777216) * (1 + 1 / 16777216)) := by ring
        _ ≤ (n : ℚ) * (t : ℚ) * (1 - 1 / 16777216) ^ 4 := mul_le_mul_of_nonneg_left kL hnt0
        _ ≤ _ := hL
    exact le_of_mul_le_mul_right h1 (by norm_num)
  have hcast : ((n * t : Nat) : ℚ) = (n : ℚ) * (t : ℚ) := by push_cast; ring
  rw [hcast]
  refine ⟨p0, ?_, ?_⟩
  · rw [sub_lt_iff_lt_add, div_lt_iff₀ hM0]
    linarith
  · rw [← sub_lt_iff_lt_add, lt_div_iff₀ hM0]
    linarith

/-- For up to `2^20` points the value stored by a single-precision tick is
within 1 of the exact floor and does not exceed the number of points. -/
theorem rounded_tick_points (n t M : Nat) (hM : 0 < M) (ht : t ≤ M) (hn : n ≤ 1048576) :
    n * t / M ≤ toUnsigned (toInt (binary32 (binary32 (n : ℚ) *
        binary32 (binary32 (t : ℚ) / binary32 (M : ℚ))))) + 1 ∧
    toUnsigned (toInt (binary32 (binary32 (n : ℚ) *
        binary32 (binary32 (t : ℚ) / binary32 (M : ℚ))))) ≤ n * t / M + 1 ∧
    toUnsigned (toInt (binary32 (binary32 (n : ℚ) *
        binary32 (binary32 (t : ℚ) / binary32 (M : ℚ))))) ≤ n := by
  obtain ⟨p0, pl, pu⟩ := rounded_tick_close n t M hM ht hn
  set p := binary32 (binary32 (n : ℚ) * binary32 (binary32 (t : ℚ) / binary32 (M : ℚ))) with hp
  rw [toInt_of_nonneg p0]
  have hfl : ⌊((n * t : Nat) : ℚ) / (M : ℚ)⌋ = ((n * t / M : Nat) : Int) := by
    rw [Rat.floor_natCast_div_natCast]
    norm_cast
  have hX1 := Int.floor_le (((n * t : Nat) : ℚ) / (M : ℚ))
  have hX2 := Int.lt_floor_add_one (((n * t : Nat) : ℚ) / (M : ℚ))
  rw [hfl] at hX1 hX2
  have hz1 := Int.floor_le p
  have hz2 := Int.lt_floor_add_one p
  have hz0 : (0 : Int) ≤ ⌊p⌋ := Int.floor_nonneg.2 p0
  have hXn : ((n * t : Nat) : ℚ) / (M : ℚ) ≤ (n : ℚ) := by
    have hM0 : (0 : ℚ) < (M : ℚ) := by exact_mod_cast hM
    rw [div_le_iff₀ hM0]
    have : (t : ℚ) ≤ (M : ℚ) := by exact_mod_cast ht
    push_cast
    exact mul_le_mul_of_nonneg_left this (Nat.cast_nonneg n)
  have hup : (⌊p⌋ : ℚ) < ((n * t / M : Nat) : Int) + 2 := by linarith
  have hlo : (((n * t / M : Nat) : Int) : ℚ) - 2 < (⌊p⌋ : ℚ) := by linarith
  have hnn : (⌊p⌋ : ℚ) < (n : ℚ) + 1 := by linarith
  have hup' : ⌊p⌋ < ((n * t / M : Nat) : Int) + 2 := by exact_mod_cast hup
  have hlo' : ((n * t / M : Nat) : Int) - 2 < ⌊p⌋ := by exact_mod_cast hlo
  have hnn' : ⌊p⌋ < (n : Int) + 1 := by exact_mod_cast hnn
  obtain ⟨k, hk⟩ := Int.eq_ofNat_of_zero_le hz0
  rw [hk, toUnsigned_natCast k (by omega)]
  omega

/-- With the identity for the rounding, the rounded tick is the exact one. -/
theorem animation_update_rounded_id (ANIMATION_NORMALIZED_MAX time_normalized : Nat)
    (d : ChartLayerData) :
    animation_update_rounded id ANIMATION_NORMALIZED_MAX time_normalized d
      = animation_update ANIMATION_NORMALIZED_MAX time_normalized d := rfl

/-! ## The dirty flag -/

/-- The data setter, the plot-type setter, the margin setter and the four
bound setters (hence their `clear` variants) leave `bLayoutDirty` set. -/
theorem setters_mark_dirty (d : ChartLayerData) (pX pY : List ℚ) (typeX typeY : ChartDataType)
    (iNumPoints : Nat) (type : ChartPlotType) (margin : Int) (v : ℚ) :
    (chart_layer_set_data pX typeX pY typeY iNumPoints d).bLayoutDirty = true ∧
    (chart_layer_set_plot_type type d).bLayoutDirty = true ∧
    (chart_layer_set_margin margin d).bLayoutDirty = true ∧
    (chart_layer_set_xmin v d).bLayoutDirty = true ∧
    (chart_layer_set_xmax v d).bLayoutDirty = true ∧
    (chart_layer_set_ymin v d).bLayoutDirty = true ∧
    (chart_layer_set_ymax v d).bLayoutDirty = true ∧
    (chart_layer_clear_xmin d).bLayoutDirty = true ∧
    (chart_layer_clear_xmax d).bLayoutDirty = true ∧
    (chart_layer_clear_ymin d).bLayoutDirty = true ∧
    (chart_layer_clear_ymax d).bLayoutDirty = true :=
  ⟨rfl, rfl, rfl, rfl, rfl, rfl, rfl, rfl, rfl, rfl, rfl⟩

/-! ## Empty data, the order of magnitude and the reveal invariant -/

/-- A dirty recompute over an empty sample set returns at once: the cached
points are dropped, the flag is cleared, nothing else is written. -/
theorem layout_of_empty (bounds : GSize) (d : ChartLayerData)
    (hdirty : d.bLayoutDirty = true) (hn : d.iNumOrigPoints = 0) :
    chart_layer_update_layout bounds d =
      some { d with
        bLayoutDirty := false
        pXData := if d.iNumPoints ≠ 0 then [] else d.pXData
        pYData := if d.iNumPoints ≠ 0 then [] else d.pYData
        iNumPoints := 0 } := by
  unfold chart_layer_update_layout
  simp only [hdirty, Bool.true_eq_false, if_false]
  cases d.pXOrigData <;> cases d.pYOrigData <;> simp [hn]

/-- The sampling rate is undefined exactly when the plot is not a scatter plot
and the unsigned plotting width is `0`. -/
theorem iSampling_eq_none_iff (typePlot : ChartPlotType) (bounds : GSize) (iMargin : Int)
    (n : Nat) :
    iSampling typePlot bounds iMargin n = none ↔
      typePlot ≠ ChartPlotType.eSCATTER ∧ plotWidthU bounds iMargin = 0 := by
  unfold iSampling
  constructor
  · intro h
    split at h
    · cases h
    · rename_i hc
      split at h
      · rename_i hz
        exact ⟨fun ht => hc (Or.inl ht), hz⟩
      · cases h
  · rintro ⟨ht, hz⟩
    rw [if_neg (by rw [hz]; exact fun h => h.elim ht (fun h' => absurd h' (Nat.not_lt_zero _))),
      if_pos hz]

/-- For the y-range 0.8 the exponent is -2 and the tick spacing
`(int)(87.5 * 0.01)` is 0 pixels. -/
theorem tick_spacing_zero_for_small_range :
    closest_log10 (4 / 5) = some (-2) ∧
    chart_layer_update_layout demoBounds smallRangeChart
      = some (layoutResult demoBounds smallRangeChart) ∧
    (layoutResult demoBounds smallRangeChart).iYTicks = 0 := by
  decide!

/-- Values of `closest_log10` on `(0, 1]`. -/
theorem closest_log10_values_up_to_one :
    closest_log10 1 = some (-1) ∧ closest_log10 (1 / 2) = some (-2) ∧
    closest_log10 (1 / 10) = some (-2) ∧ closest_log10 (1 / 1000) = some (-4) := by
  decide!

theorem closest_log10_up_spec : ∀ (fuel : Nat) (num : ℚ) (log k : Int), 1 < num →
    closest_log10_up fuel num log = some k →
    log ≤ k ∧ (10 : ℚ) ^ k < num * 10 ^ log ∧ num * 10 ^ log ≤ 10 ^ (k + 1) := by
  intro fuel
  induction fuel with
  | zero => intro num log k _ h; simp [closest_log10_up] at h
  | succ fuel ih =>
    intro num log k hnum h
    rw [closest_log10_up] at h
    have hpos : (0 : ℚ) < 10 ^ log := zpow_pos (by norm_num) log
    have hstep : (10 : ℚ) ^ (log + 1) = 10 ^ log * 10 := zpow_add_one₀ (by norm_num) log
    by_cases hgt : num > 10
    · rw [if_pos hgt] at h
      obtain ⟨h1, h2, h3⟩ := ih (num / 10) (log + 1) k (by linarith) h
      have e : num / 10 * 10 ^ (log + 1) = num * 10 ^ log := by
        rw [hstep]; ring
      rw [e] at h2 h3
      exact ⟨by omega, h2, h3⟩
    · rw [if_neg hgt] at h
      cases h
      refine ⟨le_refl _, ?_, ?_⟩
      · nlinarith
      · rw [hstep]
        have : num ≤ 10 := not_lt.1 hgt
        nlinarith

theorem closest_log10_down_spec : ∀ (fuel : Nat) (num : ℚ) (log k : Int), num < 100 →
    closest_log10_down fuel num log = some k →
    k ≤ log ∧ (num < 10 → k < log) ∧
      (10 : ℚ) ^ (k + 1) ≤ num * 10 ^ log ∧ num * 10 ^ log < 10 ^ (k + 2) := by
  intro fuel
  induction fuel with
  | zero => intro num log k _ h; simp [closest_log10_down] at h
  | succ fuel ih =>
    intro num log k hnum h
    rw [closest_log10_down] at h
    have hpos : (0 : ℚ) < 10 ^ log := zpow_pos (by norm_num) log
    have hstep : (10 : ℚ) ^ log = 10 ^ (log - 1) * 10 := by
      have := zpow_add_one₀ (by norm_num : (10 : ℚ) ≠ 0) (log - 1)
      rwa [sub_add_cancel] at this
    by_cases hlt : num < 10
    · rw [if_pos hlt] at h
      obtain ⟨h1, -, h3, h4⟩ := ih (num * 10) (log - 1) k (by linarith) h
      have e : num * 10 * 10 ^ (log - 1) = num * 10 ^ log := by
        rw [hstep]; ring
      rw [e] at h3 h4
      exact ⟨by omega, fun _ => by omega, h3, h4⟩
    · rw [if_neg hlt] at h
      cases h
      have hge : 10 ≤ num := not_lt.1 hlt
      have s1 : (10 : ℚ) ^ (log + 1) = 10 ^ log * 10 := zpow_add_one₀ (by norm_num) log
      have s2 : (10 : ℚ) ^ (log + 2) = 10 ^ log * 100 := by
        have : log + 2 = (log + 1) + 1 := by ring
        rw [this, zpow_add_one₀ (by norm_num), s1]; ring
      refine ⟨le_refl _, fun h => absurd h hlt, ?_, ?_⟩
      · rw [s1]; nlinarith
      · rw [s2]; nlinarith

/-- For `0 < v <= 1` the function returns a negative `k` with
`10^(k+1) <= v < 10^(k+2)`: the loop runs until `num >= 10`. -/
theorem closest_log10_of_le_one (v : ℚ) (h0 : 0 < v) (h1 : v ≤ 1) :
    ∃ k : Int, closest_log10 v = some k ∧ k ≤ -1 ∧
      (10 : ℚ) ^ (k + 1) ≤ v ∧ v < 10 ^ (k + 2) := by
  obtain ⟨k, hk⟩ := Option.isSome_iff_exists.1 (closest_log10_isSome v (ne_of_gt h0))
  refine ⟨k, hk, ?_⟩
  unfold closest_log10 closest_log10_fuel at hk
  rw [if_neg (not_lt.2 h0.le), if_neg (not_lt.2 h1)] at hk
  obtain ⟨-, h2, h3, h4⟩ := closest_log10_down_spec _ v 0 k (by linarith) hk
  rw [zpow_zero, mul_one] at h3 h4
  have := h2 (by linarith)
  exact ⟨by omega, h3, h4⟩

theorem zpow_ten_window_unique {v : ℚ} {k k' : Int}
    (h1 : (10 : ℚ) ^ k < v) (h2 : v ≤ 10 ^ (k + 1))
    (h1' : (10 : ℚ) ^ k' < v) (h2' : v ≤ 10 ^ (k' + 1)) : k' = k := by
  have hmono : ∀ a b : Int, a ≤ b → (10 : ℚ) ^ a ≤ 10 ^ b :=
    fun a b hab => zpow_le_zpow_right₀ (by norm_num) hab
  by_contra hne
  rcases lt_or_gt_of_ne hne with h | h
  · have := hmono (k' + 1) k (by omega)
    linarith
  · have := hmono (k + 1) k' (by omega)
    linarith

/-- What a recompute that returns leaves of the fields the reveal depends on. -/
theorem layout_effect (bounds : GSize) (d d' : ChartLayerData)
    (h : chart_layer_update_layout bounds d = some d') :
    d'.pXOrigData = d.pXOrigData ∧ d'.pYOrigData = d.pYOrigData ∧
    d'.iNumOrigPoints = d.iNumOrigPoints ∧
    (d' = d ∨ (d'.iNumPoints = 0 ∧ d'.iPointsToDraw = d.iPointsToDraw) ∨
      (d'.iPointsToDraw = 0 ∧ d'.iNumPoints ≤ d.iNumOrigPoints)) ∧
    (d.bLayoutDirty = true → d.iNumOrigPoints ≠ 0 → d.pXOrigData ≠ none →
      d.pYOrigData ≠ none → d'.iPointsToDraw = 0) := by
  unfold chart_layer_update_layout at h
  by_cases hdirty : d.bLayoutDirty = false
  · rw [if_pos hdirty] at h
    cases h
    refine ⟨rfl, rfl, rfl, Or.inl rfl, ?_⟩
    intro ht
    rw [hdirty] at ht
    cases ht
  · rw [if_neg hdirty] at h
    cases hx : d.pXOrigData with
    | none =>
      simp only [hx] at h
      cases h
      exact ⟨rfl, rfl, rfl, Or.inr (Or.inl ⟨rfl, rfl⟩), fun _ _ hne _ => absurd rfl hne⟩
    | some xs =>
      cases hy : d.pYOrigData with
      | none =>
        simp only [hx, hy] at h
        cases h
        exact ⟨rfl, rfl, rfl, Or.inr (Or.inl ⟨rfl, rfl⟩),
          fun _ _ _ hne => absurd rfl hne⟩
      | some ys =>
        simp only [hx, hy] at h
        by_cases hn : d.iNumOrigPoints = 0
        · rw [if_pos hn] at h
          cases h
          exact ⟨rfl, rfl, rfl, Or.inr (Or.inl ⟨rfl, rfl⟩),
            fun _ hne _ _ => absurd hn hne⟩
        · rw [if_neg hn] at h
          cases hs : iSampling d.typePlot bounds d.iMargin d.iNumOrigPoints with
          | none => simp [hs] at h
          | some s =>
            simp only [hs] at h
            split at h
            · cases h
            · cases h
              exact ⟨rfl, rfl, rfl, Or.inr (Or.inr ⟨rfl, Nat.div_le_self _ _⟩),
                fun _ _ _ _ => rfl⟩

theorem animation_update_le (M t : Nat) (d : ChartLayerData) (ht : t ≤ M)
    (hn : d.iNumPoints < 4294967296) :
    (animation_update M t d).iPointsToDraw ≤ d.iNumPoints ∧
    (animation_update M t d).iNumPoints = d.iNumPoints ∧
    (animation_update M t d).iNumOrigPoints = d.iNumOrigPoints ∧
    (animation_update M t d).pXOrigData = d.pXOrigData ∧
    (animation_update M t d).pYOrigData = d.pYOrigData := by
  unfold animation_update
  by_cases h : t = M
  · rw [if_pos h]
    exact ⟨le_refl _, rfl, rfl, rfl, rfl⟩
  · rw [if_neg h]
    have hM : 0 < M := by omega
    have hle : d.iNumPoints * t / M ≤ d.iNumPoints :=
      calc d.iNumPoints * t / M ≤ d.iNumPoints * M / M :=
            Nat.div_le_div_right (Nat.mul_le_mul_left _ ht)
        _ = d.iNumPoints := Nat.mul_div_cancel _ hM
    refine ⟨?_, rfl, rfl, rfl, rfl⟩
    show toUnsigned (toInt ((d.iNumPoints : ℚ) * ((t : ℚ) / (M : ℚ)))) ≤ d.iNumPoints
    rw [toInt_mul_div, toUnsigned_natCast _ (lt_of_le_of_lt hle hn)]
    exact hle

/-- The facts that hold in every reachable state: the counts are
`unsigned int` values, a non-empty sample set has both of its arrays, and
`iPointsToDraw` does not exceed a non-zero `iNumPoints`. -/
theorem reachable_invariant (M : Nat) (d : ChartLayerData) (h : Reachable M d) :
    d.iNumOrigPoints < 4294967296 ∧ d.iNumPoints < 4294967296 ∧
    (d.iNumOrigPoints ≠ 0 → d.pXOrigData ≠ none ∧ d.pYOrigData ≠ none) ∧
    (d.iNumPoints ≠ 0 → d.iPointsToDraw ≤ d.iNumPoints) := by
  induction h with
  | create => exact ⟨by decide, by decide, fun h => absurd rfl h, fun h => absurd rfl h⟩
  | set_data d pX pY typeX typeY n _ hn ih =>
    exact ⟨hn, ih.2.1, fun _ => ⟨by simp [chart_layer_set_data], by simp [chart_layer_set_data]⟩,
      ih.2.2.2⟩
  | set_plot_type d t _ ih => exact ih
  | set_plot_color d c _ ih => exact ih
  | set_canvas_color d c _ ih => exact ih
  | show_points_on_line d b _ ih => exact ih
  | set_margin d m _ ih => exact ih
  | set_xmin d v _ ih => exact ih
  | set_xmax d v _ ih => exact ih
  | set_ymin d v _ ih => exact ih
  | set_ymax d v _ ih => exact ih
  | show_frame d b _ ih =>
    unfold chart_layer_show_frame
    split
    · exact ih
    · exact ih
  | animate d b _ ih => exact ih
  | set_animation_duration d ms _ ih => exact ih
  | update_layout d d' bounds _ hl ih =>
    obtain ⟨hx, hy, hn, hc, -⟩ := layout_effect bounds d d' hl
    refine ⟨hn ▸ ih.1, ?_, ?_, ?_⟩
    · rcases hc with rfl | ⟨h0, -⟩ | ⟨-, hle⟩
      · exact ih.2.1
      · rw [h0]; decide
      · exact lt_of_le_of_lt hle ih.1
    · rw [hx, hy, hn]; exact ih.2.2.1
    · rcases hc with rfl | ⟨h0, -⟩ | ⟨hp, -⟩
      · exact ih.2.2.2
      · intro hne; exact absurd h0 hne
      · intro _; rw [hp]; exact Nat.zero_le _
  | update_func d d' bounds _ hf ih =>
    unfold chart_layer_update_func at hf
    obtain ⟨d1, hl, rfl⟩ := Option.map_eq_some'.1 hf
    obtain ⟨hx, hy, hn, hc, -⟩ := layout_effect bounds d d1 hl
    have h1 : d1.iNumPoints < 4294967296 := by
      rcases hc with rfl | ⟨h0, -⟩ | ⟨-, hle⟩
      · exact ih.2.1
      · rw [h0]; decide
      · exact lt_of_le_of_lt hle ih.1
    have h2 : d1.iNumPoints ≠ 0 → d1.iPointsToDraw ≤ d1.iNumPoints := by
      rcases hc with rfl | ⟨h0, -⟩ | ⟨hp, -⟩
      · exact ih.2.2.2
      · intro hne; exact absurd h0 hne
      · intro _; rw [hp]; exact Nat.zero_le _
    have h3 : d1.iNumOrigPoints ≠ 0 → d1.pXOrigData ≠ none ∧ d1.pYOrigData ≠ none := by
      rw [hx, hy, hn]; exact ih.2.2.1
    have h4 : d1.iNumOrigPoints < 4294967296 := hn ▸ ih.1
    split
    · split
      · exact ⟨h4, h1, h3, h2⟩
      · exact ⟨h4, h1, h3, fun _ => le_refl _⟩
    · exact ⟨h4, h1, h3, h2⟩
  | animation_update d t _ ht ih =>
    obtain ⟨a, b, c, e, f⟩ := animation_update_le M t d ht ih.2.1
    rw [b, c, e, f]
    exact ⟨ih.1, ih.2.1, ih.2.2.1, fun _ => a⟩
  | animation_stopped d _ ih => exact ih

/-! ## The y-range at sampling rate 1 -/

theorem scanY_foldl_attained (ys : List ℚ) : ∀ (idx : List Nat) (acc : YScan),
    ((idx.foldl (scanYStep ys) acc).fMinY = acc.fMinY ∨
      ∃ i ∈ idx, (idx.foldl (scanYStep ys) acc).fMinY = ys.getD i 0) ∧
    ((idx.foldl (scanYStep ys) acc).fMaxY = acc.fMaxY ∨
      ∃ i ∈ idx, (idx.foldl (scanYStep ys) acc).fMaxY = ys.getD i 0) := by
  intro idx
  induction idx with
  | nil => intro acc; exact ⟨Or.inl rfl, Or.inl rfl⟩
  | cons i rest ih =>
    intro acc
    obtain ⟨hmin, hmax⟩ := ih (scanYStep ys acc i)
    rw [List.foldl_cons]
    constructor
    · rcases hmin with h | ⟨k, hk, h⟩
      · rw [h]
        unfold scanYStep
        dsimp only
        split
        · exact Or.inr ⟨i, List.mem_cons_self _ _, rfl⟩
        · exact Or.inl rfl
      · exact Or.inr ⟨k, List.mem_cons_of_mem _ hk, h⟩
    · rcases hmax with h | ⟨k, hk, h⟩
      · rw [h]
        unfold scanYStep
        dsimp only
        split
        · exact Or.inr ⟨i, List.mem_cons_self _ _, rfl⟩
        · exact Or.inl rfl
      · exact Or.inr ⟨k, List.mem_cons_of_mem _ hk, h⟩

theorem exists_retainedIndex_one (t : ChartPlotType) (xs : List ℚ) (n i : Nat) (hi : i < n) :
    ∃ j, j < n ∧ retainedIndex t xs n 1 j = i := by
  have hmem : i ∈ (List.range n).map (retainedIndex t xs n 1) :=
    (perm_retainedIndex_one t xs n).mem_iff.2 (List.mem_range.2 hi)
  obtain ⟨j, hj, rfl⟩ := List.mem_map.1 hmem
  exact ⟨j, List.mem_range.1 hj, rfl⟩

/-- At sampling rate 1 and with no pinned y bound, the `fMinY` and `fMaxY` of
the layout are the least and the greatest y-value of the retained samples. -/
theorem y_range_over_retained_at_stride_one (bounds : GSize) (d : ChartLayerData)
    (xs ys : List ℚ) (hleny : ys.length = d.iNumOrigPoints) (hn : d.iNumOrigPoints ≠ 0)
    (hmin : d.fYMin = NOT_SET) (hmax : d.fYMax = NOT_SET) :
    (∀ j, j < d.iNumOrigPoints →
      (layoutScaleAt bounds d xs ys 1).fMinY
          ≤ ys.getD (retainedIndex d.typePlot xs d.iNumOrigPoints 1 j) 0 ∧
        ys.getD (retainedIndex d.typePlot xs d.iNumOrigPoints 1 j) 0
          ≤ (layoutScaleAt bounds d xs ys 1).fMaxY) ∧
    (∃ j, j < d.iNumOrigPoints ∧
      ys.getD (retainedIndex d.typePlot xs d.iNumOrigPoints 1 j) 0
        = (layoutScaleAt bounds d xs ys 1).fMinY) ∧
    (∃ j, j < d.iNumOrigPoints ∧
      ys.getD (retainedIndex d.typePlot xs d.iNumOrigPoints 1 j) 0
        = (layoutScaleAt bounds d xs ys 1).fMaxY) := by
  have eYmin : (layoutScaleAt bounds d xs ys 1).fMinY
      = (scanY ys (List.range d.iNumOrigPoints)).fMinY := by
    unfold layoutScaleAt layoutScale
    simp [hmin, strideIdx_one]
  have eYmax : (layoutScaleAt bounds d xs ys 1).fMaxY
      = (scanY ys (List.range d.iNumOrigPoints)).fMaxY := by
    unfold layoutScaleAt layoutScale
    simp [hmax, strideIdx_one]
  rw [eYmin, eYmax]
  have hr := (scanY_range ys d.iNumOrigPoints hleny).1
  have ha := scanY_foldl_attained ys (List.range d.iNumOrigPoints)
    { fMaxY := ys.getD 0 0, fMinY := ys.getD 0 0 }
  have h0 : 0 < d.iNumOrigPoints := Nat.pos_of_ne_zero hn
  refine ⟨fun j hj => hr _ (retainedIndex_lt _ _ _ _ _ (by simpa using hj)), ?_, ?_⟩
  · obtain ⟨i, hi, he⟩ : ∃ i, i < d.iNumOrigPoints ∧
        (scanY ys (List.range d.iNumOrigPoints)).fMinY = ys.getD i 0 := by
      rcases ha.1 with h | ⟨i, hi, h⟩
      · exact ⟨0, h0, h⟩
      · exact ⟨i, List.mem_range.1 hi, h⟩
    obtain ⟨j, hj, hji⟩ := exists_retainedIndex_one d.typePlot xs _ i hi
    exact ⟨j, hj, by rw [hji, he]⟩
  · obtain ⟨i, hi, he⟩ : ∃ i, i < d.iNumOrigPoints ∧
        (scanY ys (List.range d.iNumOrigPoints)).fMaxY = ys.getD i 0 := by
      rcases ha.2 with h | ⟨i, hi, h⟩
      · exact ⟨0, h0, h⟩
      · exact ⟨i, List.mem_range.1 hi, h⟩
    obtain ⟨j, hj, hji⟩ := exists_retainedIndex_one d.typePlot xs _ i hi
    exact ⟨j, hj, by rw [hji, he]⟩

/-! ## Claims C1 to C4: ordering, pairing and sampling of the stored points -/

/-- Claim C1, counterexample.  The demo chart "Pinned X to 0" (a line plot of
six points with x from 50 to 110) with `x_max` pinned to 10: the recompute
returns six points whose first two pixel columns are 5 and -28, so the stored
x-coordinates are not non-decreasing in this configuration. -/
theorem pixel_x_decreasing_when_xmax_pinned_low :
    (chart_layer_set_xmax 10 (load_chart_1 chart_layer_create)).typePlot
      = ChartPlotType.eLINE ∧
    (chart_layer_set_xmax 10 (load_chart_1 chart_layer_create)).iNumOrigPoints = 6 ∧
    chart_layer_update_layout demoBounds (chart_layer_set_xmax 10 (load_chart_1 chart_layer_create))
      = some (layoutResult demoBounds (chart_layer_set_xmax 10 (load_chart_1 chart_layer_create))) ∧
    0 + 1 < (layoutResult demoBounds
      (chart_layer_set_xmax 10 (load_chart_1 chart_layer_create))).iNumPoints ∧
    ¬ ((layoutResult demoBounds
        (chart_layer_set_xmax 10 (load_chart_1 chart_layer_create))).pXData.getD 0 0
      ≤ (layoutResult demoBounds
        (chart_layer_set_xmax 10 (load_chart_1 chart_layer_create))).pXData.getD (0 + 1) 0) := by
  decide!

/-- Claim C1, amended.  For a non-empty sample set whose x-values are at most
`2^24` in magnitude and pairwise equal or at least 1 apart, a line or bar plot,
a width that is an `int16_t`, a margin of at most `2^29` in magnitude, a
positive plotting width `bounds.size.w - 2 * iMargin`, an x-range
`fMaxX - fMinX` (after the pinned overrides) of at least 1, and pixel products
`fXScale * (x - fMinX + fMinXSep/2)` of at most `2^30` in magnitude: the
plotting width, every value returned by the comparator and every stored column
are inside the range of `int`, and every recompute that returns leaves
non-decreasing pixel x-coordinates, `pXData[j] <= pXData[j+1]` whenever
`j + 1 < iNumPoints`. -/
theorem pixel_x_nondecreasing (bounds : GSize) (d d' : ChartLayerData)
    (xs ys : List ℚ) (s : Nat)
    (hdirty : d.bLayoutDirty = true) (hx : d.pXOrigData = some xs)
    (hy : d.pYOrigData = some ys) (hlenx : xs.length = d.iNumOrigPoints)
    (hleny : ys.length = d.iNumOrigPoints) (hn : d.iNumOrigPoints ≠ 0)
    (hplot : d.typePlot = ChartPlotType.eLINE ∨ d.typePlot = ChartPlotType.eBAR)
    (hexact : ∀ u ∈ xs, ∀ v ∈ xs, u = v ∨ 1 ≤ |u - v|)
    (hmag : ∀ u ∈ xs, |u| ≤ 16777216)
    (hs : iSampling d.typePlot bounds d.iMargin d.iNumOrigPoints = some s)
    (hw : -32768 ≤ bounds.w ∧ bounds.w ≤ 32767)
    (hmargin : -536870912 ≤ d.iMargin ∧ d.iMargin ≤ 536870912)
    (hW : 0 < bounds.w - 2 * d.iMargin)
    (hrange : (layoutScaleAt bounds d xs ys s).fMinX + 1 ≤ (layoutScaleAt bounds d xs ys s).fMaxX)
    (hfit : ∀ u ∈ xs, |(layoutScaleAt bounds d xs ys s).fXScale
      * (u - (layoutScaleAt bounds d xs ys s).fMinX
          + (layoutScaleAt bounds d xs ys s).fMinXSep / 2)| ≤ 1073741824)
    (hret : chart_layer_update_layout bounds d = some d') :
    (bounds.w - 2 * d.iMargin < 2147483648 ∧
      ∀ u ∈ xs, ∀ v ∈ xs,
        -2147483648 < cmpChartSortHelper { x_value := u, index := 0 } { x_value := v, index := 0 } ∧
        cmpChartSortHelper { x_value := u, index := 0 } { x_value := v, index := 0 }
          < 2147483648) ∧
    (∀ j, j < d'.iNumPoints →
      -2147483648 < d'.pXData.getD j 0 ∧ d'.pXData.getD j 0 < 2147483648) ∧
    ∀ j, j + 1 < d'.iNumPoints → d'.pXData.getD j 0 ≤ d'.pXData.getD (j + 1) 0 := by
  have hne : d.typePlot ≠ ChartPlotType.eSCATTER := by
    rcases hplot with h | h <;> rw [h] <;> decide
  have hsep := layoutScaleAt_sep_nonneg bounds d xs ys s hlenx hne hexact
  have hscale : 0 < (layoutScaleAt bounds d xs ys s).fXScale := by
    have e : (layoutScaleAt bounds d xs ys s).fXScale
        = ((bounds.w - 2 * d.iMargin : Int) : ℚ)
          / ((layoutScaleAt bounds d xs ys s).fMaxX - (layoutScaleAt bounds d xs ys s).fMinX
              + (layoutScaleAt bounds d xs ys s).fMinXSep) := rfl
    rw [e]
    apply div_pos
    · exact_mod_cast hW
    · linarith
  obtain ⟨hnum, -, hpts⟩ := layout_retained_points bounds d d' xs ys s hdirty hx hy hn hs hret
  have hs1 : 1 ≤ s := iSampling_pos _ _ _ _ _ hs
  refine ⟨⟨by omega, ?_⟩, ?_, ?_⟩
  · intro u hu v hv
    have hub := hmag u hu
    have hvb := hmag v hv
    rw [abs_le] at hub hvb
    have hd : |u - v| ≤ ((33554432 : Int) : ℚ) := by
      rw [abs_le]; push_cast; constructor <;> linarith
    have := toInt_abs_le hd
    unfold cmpChartSortHelper
    dsimp only
    omega
  · intro j hj
    obtain ⟨hk, hpx, -⟩ := hpts j hj
    have hmem : xs.getD (retainedIndex d.typePlot xs d.iNumOrigPoints s j) 0 ∈ xs := by
      rw [List.getD_eq_getElem _ _ (by rw [hlenx]; exact hk)]
      exact List.getElem_mem _
    have hb := hfit _ hmem
    have := toInt_abs_le (B := 1073741824) (by exact_mod_cast hb)
    rw [hpx]
    unfold xPixel
    omega
  · intro j hj
    rw [hnum] at hj
    have hj1 : (j + 1) * s < d.iNumOrigPoints := mul_lt_of_lt_div hs1 hj
    have hj0 : j * s < d.iNumOrigPoints := by
      rw [Nat.add_mul] at hj1; omega
    obtain ⟨s', lg, hs', -, -, hpx, -⟩ := layout_spec bounds d d' xs ys hdirty hx hy hn hret
    rw [hs] at hs'
    cases hs'
    rw [hpx, getD_map_strideIdx _ _ _ _ _ hs1 hj0, getD_map_strideIdx _ _ _ _ _ hs1 hj1]
    apply xPixel_mono _ _ hscale.le
    have e0 := (mem_layoutSortOrder
      (getD_mem_layoutSortOrder d.typePlot xs d.iNumOrigPoints (j * s) hj0)).2
    have e1 := (mem_layoutSortOrder
      (getD_mem_layoutSortOrder d.typePlot xs d.iNumOrigPoints ((j + 1) * s) hj1)).2
    rw [← e0, ← e1]
    exact x_value_getD_mono d.typePlot xs _ hlenx hne hexact _ _
      (Nat.mul_le_mul_right s (Nat.le_succ j)) hj1

/-- Claim C1, witness: the demo chart "Unsorted X" (x = 4, 2, 5, 0, 3, 1) on
the 144 x 80 layer; the stored columns are 5, 31, 58, 85, 112, 139. -/
theorem pixel_x_nondecreasing_witness :
    chart_layer_update_layout demoBounds (load_chart_7 chart_layer_create)
      = some (layoutResult demoBounds (load_chart_7 chart_layer_create)) ∧
    (layoutResult demoBounds (load_chart_7 chart_layer_create)).pXData
      = [5, 31, 58, 85, 112, 139] ∧
    (layoutResult demoBounds (load_chart_7 chart_layer_create)).pXData.getD 2 0
      ≤ (layoutResult demoBounds (load_chart_7 chart_layer_create)).pXData.getD (2 + 1) 0 :=
  ⟨by decide!, by decide!,
    (pixel_x_nondecreasing demoBounds (load_chart_7 chart_layer_create)
      (layoutResult demoBounds (load_chart_7 chart_layer_create))
      [4, 2, 5, 0, 3, 1] [4, 2, 5, 0, 3, 1] 1 (by decide!) (by decide!) (by decide!)
      (by decide!) (by decide!) (by decide!) (Or.inl (by decide!)) (by decide!) (by decide!)
      (by decide!) (by decide!) (by decide!) (by decide!) (by decide!) (by decide!)
      (by decide!)).2.2 2 (by decide!)⟩

/-- Claim C2, the code at the failing input.  A line chart of the samples
(3, 5), (1, 5), (2, 5): the sort order is found (original indices 1, 2, 0),
but all y-values are equal, so the layout calls `closest_log10` on the range 0,
from which it does not return: the recompute never returns and no pixel pair
is stored for any retained position. -/
theorem flat_line_chart_is_never_laid_out :
    flatLineChart.typePlot = ChartPlotType.eLINE ∧
    flatLineChart.iNumOrigPoints = 3 ∧
    flatLineChart.pXOrigData = some [3, 1, 2] ∧ flatLineChart.pYOrigData = some [5, 5, 5] ∧
    flatLineChart.bLayoutDirty = true ∧
    iSampling flatLineChart.typePlot demoBounds flatLineChart.iMargin
      flatLineChart.iNumOrigPoints = some 1 ∧
    (List.range 3).map (retainedIndex ChartPlotType.eLINE [3, 1, 2] 3 1) = [1, 2, 0] ∧
    (layoutScaleAt demoBounds flatLineChart [3, 1, 2] [5, 5, 5] 1).fMaxY
      - (layoutScaleAt demoBounds flatLineChart [3, 1, 2] [5, 5, 5] 1).fMinY = 0 ∧
    closest_log10 ((layoutScaleAt demoBounds flatLineChart [3, 1, 2] [5, 5, 5] 1).fMaxY
      - (layoutScaleAt demoBounds flatLineChart [3, 1, 2] [5, 5, 5] 1).fMinY) = none ∧
    chart_layer_update_layout demoBounds flatLineChart = none := by
  decide!

/-- Claim C3, the code at the failing input.  A scatter chart of the samples
(1, 5), (2, 5), (3, 5): the sampled count 3 is computed, but all y-values are
equal, so the layout calls `closest_log10` on the range 0, from which it does
not return: the recompute never returns and no point is stored. -/
theorem flat_scatter_chart_is_never_laid_out :
    flatScatterChart.typePlot = ChartPlotType.eSCATTER ∧
    flatScatterChart.iNumOrigPoints = 3 ∧
    flatScatterChart.pXOrigData = some [1, 2, 3] ∧
    flatScatterChart.pYOrigData = some [5, 5, 5] ∧
    flatScatterChart.bLayoutDirty = true ∧
    sampledCount flatScatterChart.typePlot demoBounds flatScatterChart.iMargin
      flatScatterChart.iNumOrigPoints = some 3 ∧
    (layoutScaleAt demoBounds flatScatterChart [1, 2, 3] [5, 5, 5] 1).fMaxY
      - (layoutScaleAt demoBounds flatScatterChart [1, 2, 3] [5, 5, 5] 1).fMinY = 0 ∧
    closest_log10 ((layoutScaleAt demoBounds flatScatterChart [1, 2, 3] [5, 5, 5] 1).fMaxY
      - (layoutScaleAt demoBounds flatScatterChart [1, 2, 3] [5, 5, 5] 1).fMinY) = none ∧
    chart_layer_update_layout demoBounds flatScatterChart = none := by
  decide!

/-- Claim C4.  For a dataset with `1 <= count <= bounds.size.w - 2 * iMargin`
(the width an `int16_t`, the product `2 * iMargin` an `int`), the sampling rate
computed by the layout is 1 and the count it stores in `iNumPoints` right
after is `count`, whether or not the recompute goes on to return; when it does
return, `iNumPoints` still is `count`.  The boundary `count = width` is
included. -/
theorem stride_one_of_count_le_width (bounds : GSize) (d : ChartLayerData)
    (hw : -32768 ≤ bounds.w ∧ bounds.w ≤ 32767)
    (hm : -2147483648 ≤ 2 * d.iMargin ∧ 2 * d.iMargin ≤ 2147483647)
    (h1 : 1 ≤ d.iNumOrigPoints)
    (h2 : (d.iNumOrigPoints : Int) ≤ bounds.w - 2 * d.iMargin) :
    iSampling d.typePlot bounds d.iMargin d.iNumOrigPoints = some 1 ∧
    sampledCount d.typePlot bounds d.iMargin d.iNumOrigPoints = some d.iNumOrigPoints ∧
    ∀ (d' : ChartLayerData) (xs ys : List ℚ), d.bLayoutDirty = true →
      d.pXOrigData = some xs → d.pYOrigData = some ys →
      chart_layer_update_layout bounds d = some d' → d'.iNumPoints = d.iNumOrigPoints := by
  have hs := iSampling_of_le_width d.typePlot bounds d.iMargin d.iNumOrigPoints hw.2 hm.1 h1 h2
  have hc : sampledCount d.typePlot bounds d.iMargin d.iNumOrigPoints
      = some d.iNumOrigPoints := by
    unfold sampledCount
    rw [hs]
    simp
  refine ⟨hs, hc, ?_⟩
  intro d' xs ys hdirty hx hy hret
  have := layout_stores_sampledCount bounds d d' xs ys hdirty hx hy (by omega) hret
  rw [hc] at this
  exact (Option.some.inj this).symm

/-- Claim C4, witness: the six points of "Unsorted X" on a layer 16 pixels
wide with margin 5, where the plotting width is exactly 6; and the single
point chart, whose recompute does not return, with sampling rate 1 and
sampled count 1. -/
theorem stride_one_of_count_le_width_witness :
    ((6 : Nat) : Int) ≤ (16 : Int) - 2 * 5 ∧
    iSampling ChartPlotType.eLINE { w := 16, h := 80 } 5 6 = some 1 ∧
    sampledCount ChartPlotType.eLINE { w := 16, h := 80 } 5 6 = some 6 ∧
    chart_layer_update_layout { w := 16, h := 80 } (load_chart_7 chart_layer_create)
      = some (layoutResult { w := 16, h := 80 } (load_chart_7 chart_layer_create)) ∧
    (layoutResult { w := 16, h := 80 } (load_chart_7 chart_layer_create)).iNumPoints = 6 ∧
    chart_layer_update_layout demoBounds singlePointChart = none ∧
    iSampling ChartPlotType.eLINE demoBounds 5 1 = some 1 ∧
    sampledCount ChartPlotType.eLINE demoBounds 5 1 = some 1 := by
  have hret : chart_layer_update_layout { w := 16, h := 80 } (load_chart_7 chart_layer_create)
      = some (layoutResult { w := 16, h := 80 } (load_chart_7 chart_layer_create)) := by decide!
  have h := stride_one_of_count_le_width { w := 16, h := 80 } (load_chart_7 chart_layer_create)
    (by decide) (by decide) (by decide) (by decide)
  have h' := stride_one_of_count_le_width demoBounds singlePointChart
    (by decide) (by decide) (by decide) (by decide)
  exact ⟨by decide, h.1, h.2.1, hret,
    h.2.2 _ [4, 2, 5, 0, 3, 1] [4, 2, 5, 0, 3, 1] (by decide!) (by decide!) (by decide!) hret,
    by decide!, h'.1, h'.2.1⟩

/-! ## Claims C5 to C7: sampling and fit, evaluated on the code -/

/-- Claim C5, the code at the failing input.  The demo chart "200 pt Sampling"
(200 points, layer width 144, margin 5, unsigned plotting width 134): the
sampling rate is `200 / 134 = 1` and all 200 points are kept. -/
theorem two_hundred_points_not_sampled :
    (load_chart_3 chart_layer_create).typePlot = ChartPlotType.eLINE ∧
    plotWidthU demoBounds (load_chart_3 chart_layer_create).iMargin = 134 ∧
    (load_chart_3 chart_layer_create).iNumOrigPoints = 200 ∧
    iSampling ChartPlotType.eLINE demoBounds 5 200 = some 1 ∧
    chart_layer_update_layout demoBounds (load_chart_3 chart_layer_create)
      = some (layoutResult demoBounds (load_chart_3 chart_layer_create)) ∧
    (layoutResult demoBounds (load_chart_3 chart_layer_create)).iNumPoints = 200 := by
  decide!

/-- Claim C6, the code at the failing input.  A line chart of 269 points on the
144 pixel wide layer with margin 5: the sampling rate is `269 / 134 = 2`,
`iNumPoints = 269 / 2 = 134` cells are allocated, and each fill loop runs for
`i = 0, 2, .., 268`, which is 135 writes; the last one has `j = 134`. -/
theorem fill_loops_write_past_allocation :
    iSampling rampChart269.typePlot demoBounds rampChart269.iMargin rampChart269.iNumOrigPoints
      = some 2 ∧
    (strideIdx 269 2).length = 135 ∧
    chart_layer_update_layout demoBounds rampChart269
      = some (layoutResult demoBounds rampChart269) ∧
    (layoutResult demoBounds rampChart269).iNumPoints = 134 ∧
    (layoutResult demoBounds rampChart269).pXData.length = 135 ∧
    (layoutResult demoBounds rampChart269).pYData.length = 135 := by
  decide!

/-- Claim C7, the code at the failing input.  A bar chart of the float samples
(0.5, 1), (0.0, 2), (0.9, 3) on the 144 x 80 layer with margin 5 and no pinned
bound: the comparator returns 0 for every pair, `sort_order` stays in input
order, the separation comes out as -0.5, and the stored columns are
88, -78, 222: the second is left of the margin, the third right of
`w - margin = 139`. -/
theorem bar_points_outside_margins :
    cmpChartSortHelper { x_value := 1 / 2, index := 0 } { x_value := 0, index := 1 } = 0 ∧
    layoutSortOrder ChartPlotType.eBAR [1 / 2, 0, 9 / 10] 3
      = sortOrderInit [1 / 2, 0, 9 / 10] 3 ∧
    (layoutScaleAt demoBounds fractionalBarChart [1 / 2, 0, 9 / 10] [1, 2, 3] 1).fMinXSep
      = -1 / 2 ∧
    chart_layer_update_layout demoBounds fractionalBarChart
      = some (layoutResult demoBounds fractionalBarChart) ∧
    (layoutResult demoBounds fractionalBarChart).pXData = [88, -78, 222] ∧
    ¬ (fractionalBarChart.iMargin ≤ (layoutResult demoBounds fractionalBarChart).pXData.getD 1 0) ∧
    ¬ ((layoutResult demoBounds fractionalBarChart).pXData.getD 2 0
      ≤ demoBounds.w - fractionalBarChart.iMargin) := by
  decide!

/-! ## Claims C8 to C10: setters and the animation tick -/

/-- Claim C8, the code at the failing input.  After the demo chart "Unsorted X"
has been laid out (the flag is clear), `chart_layer_show_frame (true)` changes
`iMargin` from 5 to 4, a value the layout reads, and leaves `bLayoutDirty`
false, so the next recompute is a no-op on the stale points; the sibling
`chart_layer_set_margin` with the same new margin does set the flag. -/
theorem show_frame_leaves_layout_clean :
    chart_layer_update_layout demoBounds (load_chart_7 chart_layer_create)
      = some (layoutResult demoBounds (load_chart_7 chart_layer_create)) ∧
    (layoutResult demoBounds (load_chart_7 chart_layer_create)).bLayoutDirty = false ∧
    (layoutResult demoBounds (load_chart_7 chart_layer_create)).iMargin = 5 ∧
    (chart_layer_show_frame true
      (layoutResult demoBounds (load_chart_7 chart_layer_create))).iMargin = 4 ∧
    (chart_layer_show_frame true
      (layoutResult demoBounds (load_chart_7 chart_layer_create))).bLayoutDirty = false ∧
    chart_layer_update_layout demoBounds
        (chart_layer_show_frame true (layoutResult demoBounds (load_chart_7 chart_layer_create)))
      = some (chart_layer_show_frame true
        (layoutResult demoBounds (load_chart_7 chart_layer_create))) ∧
    (chart_layer_set_margin 4
      (layoutResult demoBounds (load_chart_7 chart_layer_create))).bLayoutDirty = true := by
  decide!

/-- Claim C9, the code at the failing input.  On a fresh widget (margin 5, no
frame) `chart_layer_show_frame (true)` leaves `iMargin = 4`, not `5 + 1`; and
the result depends on the order of the two setters: `set_margin (5)` after
`show_frame (true)` gives 6, `show_frame (true)` after `set_margin (5)`
gives 4. -/
theorem show_frame_decrements_margin :
    (chart_layer_show_frame true chart_layer_create).bShowFrame = true ∧
    (chart_layer_show_frame true chart_layer_create).iMargin = 4 ∧
    (chart_layer_set_margin 5 (chart_layer_show_frame true chart_layer_create)).iMargin = 6 ∧
    (chart_layer_show_frame true (chart_layer_set_margin 5 chart_layer_create)).iMargin = 4 := by
  decide

/-- Claim C10, counterexample.  In single precision, with 65535 for
`ANIMATION_NORMALIZED_MAX`: 317 points at the tick 41347 give 200 points to
draw where the floor of `317 * 41347 / 65535` is 199; 771 points at the tick
1275 give 14 where the quotient is exactly 15; 5000 points at the tick 16292
give 1243 where the floor is 1242. -/
theorem animation_update_rounding_misses_floor :
    (laidOutPoints 317).iNumPoints = 317 ∧ (41347 : Nat) < 65535 ∧
    (animation_update_rounded binary32 65535 41347 (laidOutPoints 317)).iPointsToDraw = 200 ∧
    317 * 41347 / 65535 = 199 ∧
    (laidOutPoints 771).iNumPoints = 771 ∧ (1275 : Nat) < 65535 ∧
    (animation_update_rounded binary32 65535 1275 (laidOutPoints 771)).iPointsToDraw = 14 ∧
    771 * 1275 / 65535 = 15 ∧
    (laidOutPoints 5000).iNumPoints = 5000 ∧ (16292 : Nat) < 65535 ∧
    (animation_update_rounded binary32 65535 16292 (laidOutPoints 5000)).iPointsToDraw = 1243 ∧
    5000 * 16292 / 65535 = 1242 := by
  decide!

/-- Claim C10, amended.  In single precision, for every number of points
`n = iNumPoints` up to `2^20` and every tick value `t` with
`0 <= t <= ANIMATION_NORMALIZED_MAX`, `animation_update` sets `iPointsToDraw`
to exactly `n` when `t` is the maximum, and otherwise to a value that differs
from `floor (n * t / ANIMATION_NORMALIZED_MAX)` by at most 1 and is at most
`n`; it changes no other field. -/
theorem animation_update_points (ANIMATION_NORMALIZED_MAX time_normalized : Nat)
    (d : ChartLayerData) (hmax : 0 < ANIMATION_NORMALIZED_MAX)
    (ht : time_normalized ≤ ANIMATION_NORMALIZED_MAX) (hn : d.iNumPoints ≤ 1048576) :
    (time_normalized = ANIMATION_NORMALIZED_MAX →
      animation_update_rounded binary32 ANIMATION_NORMALIZED_MAX time_normalized d
        = { d with iPointsToDraw := d.iNumPoints }) ∧
    (time_normalized < ANIMATION_NORMALIZED_MAX →
      d.iNumPoints * time_normalized / ANIMATION_NORMALIZED_MAX
        ≤ (animation_update_rounded binary32 ANIMATION_NORMALIZED_MAX time_normalized
            d).iPointsToDraw + 1 ∧
      (animation_update_rounded binary32 ANIMATION_NORMALIZED_MAX time_normalized
          d).iPointsToDraw
        ≤ d.iNumPoints * time_normalized / ANIMATION_NORMALIZED_MAX + 1 ∧
      (animation_update_rounded binary32 ANIMATION_NORMALIZED_MAX time_normalized
          d).iPointsToDraw ≤ d.iNumPoints) ∧
    { animation_update_rounded binary32 ANIMATION_NORMALIZED_MAX time_normalized d with
        iPointsToDraw := d.iPointsToDraw } = d := by
  refine ⟨?_, ?_, ?_⟩
  · intro h
    unfold animation_update_rounded
    rw [if_pos h]
  · intro h
    unfold animation_update_rounded
    rw [if_neg (Nat.ne_of_lt h)]
    exact rounded_tick_points d.iNumPoints time_normalized ANIMATION_NORMALIZED_MAX hmax ht hn
  · unfold animation_update_rounded
    split <;> rfl

/-- Claim C10, witness: 5000 points and a maximum of 65535; the tick 16292
shows 1243 points, one more than the floor 1242, and the maximal tick shows
all 5000. -/
theorem animation_update_points_witness :
    (0 : Nat) < 65535 ∧ (16292 : Nat) < 65535 ∧ (5000 : Nat) ≤ 1048576 ∧
    5000 * 16292 / 65535 = 1242 ∧
    (animation_update_rounded binary32 65535 16292 (laidOutPoints 5000)).iPointsToDraw = 1243 ∧
    (animation_update_rounded binary32 65535 16292 (laidOutPoints 5000)).iPointsToDraw
      ≤ 5000 * 16292 / 65535 + 1 ∧
    animation_update_rounded binary32 65535 65535 (laidOutPoints 5000)
      = { laidOutPoints 5000 with iPointsToDraw := 5000 } :=
  ⟨by decide, by decide, by decide, by decide, by decide!,
    ((animation_update_points 65535 16292 (laidOutPoints 5000) (by decide) (by decide)
      (by decide)).2.1 (by decide)).2.1,
    (animation_update_points 65535 65535 (laidOutPoints 5000) (by decide) (by decide)
      (by decide)).1 rfl⟩

/-! ## Claims C11 to C16: empty data, y-range, order of magnitude, reveal, stride -/

/-- Claim C11.  For every prior state, every bounds and every arrays,
`chart_layer_set_data` with `iNumPoints = 0` followed by
`chart_layer_update_layout` returns with `iNumPoints = 0` and the dirty flag
cleared, and the axis intercepts, the tick spacing and the bar width keep the
values they had before. -/
theorem empty_data_yields_empty_model (bounds : GSize) (d : ChartLayerData) (pX pY : List ℚ)
    (typeX typeY : ChartDataType) :
    chart_layer_update_layout bounds (chart_layer_set_data pX typeX pY typeY 0 d)
      = some (layoutResult bounds (chart_layer_set_data pX typeX pY typeY 0 d)) ∧
    (layoutResult bounds (chart_layer_set_data pX typeX pY typeY 0 d)).iNumPoints = 0 ∧
    (layoutResult bounds (chart_layer_set_data pX typeX pY typeY 0 d)).bLayoutDirty = false ∧
    (layoutResult bounds (chart_layer_set_data pX typeX pY typeY 0 d)).iXAxisIntercept
      = d.iXAxisIntercept ∧
    (layoutResult bounds (chart_layer_set_data pX typeX pY typeY 0 d)).iYAxisIntercept
      = d.iYAxisIntercept ∧
    (layoutResult bounds (chart_layer_set_data pX typeX pY typeY 0 d)).iYTicks = d.iYTicks ∧
    (layoutResult bounds (chart_layer_set_data pX typeX pY typeY 0 d)).iBarWidth
      = d.iBarWidth := by
  have h := layout_of_empty bounds (chart_layer_set_data pX typeX pY typeY 0 d) rfl rfl
  unfold layoutResult
  rw [h]
  exact ⟨rfl, rfl, rfl, rfl, rfl, rfl, rfl⟩

/-- Claim C12, the code at the failing input.  A line chart of the samples
(3, 10), (2, 20), (1, 30), (0, 40), no pinned bound, on a layer 12 pixels wide
with margin 5 (plotting width 2, sampling rate 2): the stored points are those
of the samples with y = 40 and y = 20 (`sort_order[0]`, `sort_order[2]`), but
the y-scan reads `pYOrigData[0]` and `pYOrigData[2]`, so the scale uses
`fMinY = 10` and `fMaxY = 30`; the stored rows are -30 and 40. -/
theorem y_range_not_over_retained_points :
    descendingChart.typePlot = ChartPlotType.eLINE ∧
    descendingChart.fYMin = NOT_SET ∧ descendingChart.fYMax = NOT_SET ∧
    iSampling descendingChart.typePlot narrowBounds descendingChart.iMargin
      descendingChart.iNumOrigPoints = some 2 ∧
    chart_layer_update_layout narrowBounds descendingChart
      = some (layoutResult narrowBounds descendingChart) ∧
    (layoutResult narrowBounds descendingChart).iNumPoints = 2 ∧
    (List.range 2).map (fun j => ([10, 20, 30, 40] : List ℚ).getD
      (retainedIndex ChartPlotType.eLINE [3, 2, 1, 0] 4 2 j) 0) = [40, 20] ∧
    (layoutScaleAt narrowBounds descendingChart [3, 2, 1, 0] [10, 20, 30, 40] 2).fMinY = 10 ∧
    (layoutScaleAt narrowBounds descendingChart [3, 2, 1, 0] [10, 20, 30, 40] 2).fMaxY = 30 ∧
    (layoutResult narrowBounds descendingChart).pYData = [-30, 40] := by
  decide!

/-- Claim C13, the code at the failing input.  From `num = 0` the loop
`while (num < 10) num = num * 10` never exits, however many iterations are
allowed, so `closest_log10 (0)` does not return; a single-point chart passes
exactly this argument, and its recompute does not return either.  A negative
argument does return 0. -/
theorem closest_log10_of_zero_never_returns :
    (∀ fuel, closest_log10_fuel fuel 0 = none) ∧
    closest_log10 0 = none ∧
    closest_log10 (-3) = some 0 ∧
    (layoutScaleAt demoBounds singlePointChart [3] [7] 1).fMaxY
      - (layoutScaleAt demoBounds singlePointChart [3] [7] 1).fMinY = 0 ∧
    chart_layer_update_layout demoBounds singlePointChart = none :=
  ⟨closest_log10_fuel_zero, closest_log10_zero, by decide!, by decide!, by decide!⟩

/-- Claim C14, counterexample.  On the exact powers 10 and 100 the function
returns 0 and 1, not 1 and 2: the returned `k` does not satisfy
`v < 10^(k+1)`. -/
theorem closest_log10_at_powers_of_ten :
    closest_log10 10 = some 0 ∧ closest_log10 100 = some 1 ∧
    ¬ ((10 : ℚ) < 10 ^ ((0 : Int) + 1)) ∧ ¬ ((100 : ℚ) < 10 ^ ((1 : Int) + 1)) := by
  refine ⟨by decide!, by decide!, ?_, ?_⟩ <;> norm_num

/-- Claim C14, amended.  For every `v` with `1 < v <= 10^10`,
`closest_log10 (v)` returns the one integer `k` with `10^k < v <= 10^(k+1)`,
and `0 <= k <= 9`: `10^k` is the largest power of ten strictly below `v`.
This `k` is returned by the loop with exact quotients and, for every binary32
number `v`, by the loop with the quotients rounded to single precision. -/
theorem closest_log10_above_one (v : ℚ) (hv : 1 < v) (hv10 : v ≤ 10000000000) :
    ∃ k : Int, closest_log10 v = some k ∧
      (binary32 v = v → closest_log10_rounded binary32 v = some k) ∧
      0 ≤ k ∧ k ≤ 9 ∧ (10 : ℚ) ^ k < v ∧ v ≤ 10 ^ (k + 1) ∧
      ∀ k' : Int, (10 : ℚ) ^ k' < v → v ≤ 10 ^ (k' + 1) → k' = k := by
  have hv0 : v ≠ 0 := by linarith
  have hpos : 0 < v := by linarith
  obtain ⟨k, hk⟩ := Option.isSome_iff_exists.1 (closest_log10_isSome v hv0)
  refine ⟨k, hk, ?_⟩
  unfold closest_log10 closest_log10_fuel at hk
  rw [if_neg (by linarith), if_pos hv] at hk
  obtain ⟨h1, h2, h3⟩ := closest_log10_up_spec _ v 0 k hv hk
  rw [zpow_zero, mul_one] at h2 h3
  have hk9 : k ≤ 9 := by
    by_contra hk9
    have h10 : (10 : ℚ) ^ (10 : Int) ≤ 10 ^ k := zpow_le_zpow_right₀ (by norm_num) (by omega)
    have e : (10 : ℚ) ^ (10 : Int) = 10000000000 := by norm_num
    linarith
  refine ⟨?_, h1, hk9, h2, h3, fun k' a b => zpow_ten_window_unique h2 h3 a b⟩
  intro hfl
  obtain ⟨n, rfl⟩ := Int.eq_ofNat_of_zero_le h1
  rw [zpow_natCast] at h2
  have h3' : v ≤ (10 : ℚ) ^ (n + 1) := by
    have : ((n : Int) + 1) = ((n + 1 : Nat) : Int) := by push_cast; rfl
    rw [this, zpow_natCast] at h3
    exact h3
  have hfuel : n < v.num.natAbs + v.den + 2 := by
    have a1 : (n : ℚ) < (10 : ℚ) ^ n := by exact_mod_cast Nat.lt_pow_self (by norm_num) n
    have a2 := rat_le_natAbs_num v hpos
    have : (n : ℚ) < (v.num.natAbs : ℚ) := by linarith
    have : n < v.num.natAbs := by exact_mod_cast this
    omega
  unfold closest_log10_rounded
  rw [if_neg (by linarith), if_pos hv,
    closest_log10_up_rounded_spec n (by omega) v hfl h2 h3' _ 0 hfuel]
  simp

/-- Claim C14, witness: `v = 100`, a binary32 number, gives `k = 1` in exact
and in single precision arithmetic, with `10 < 100 <= 100`. -/
theorem closest_log10_above_one_witness :
    (1 : ℚ) < 100 ∧ (100 : ℚ) ≤ 10000000000 ∧ binary32 100 = 100 ∧
    closest_log10 100 = some 1 ∧ closest_log10_rounded binary32 100 = some 1 ∧
    (10 : ℚ) ^ (1 : Int) < 100 ∧ (100 : ℚ) ≤ 10 ^ ((1 : Int) + 1) := by
  obtain ⟨k, hk, hr, -, -, h1, h2, -⟩ := closest_log10_above_one 100 (by norm_num) (by norm_num)
  have e : closest_log10 100 = some 1 := by decide!
  have hb : binary32 100 = 100 := by decide!
  have hr' := hr hb
  rw [e] at hk
  cases hk
  exact ⟨by norm_num, by norm_num, hb, e, hr', h1, h2⟩

/-- Claim C15, counterexample.  The demo chart "Unsorted X" is drawn, its
reveal runs to the last tick (6 of 6 points), then `chart_layer_set_data` is
called with `iNumPoints = 0`.  The state is reachable and dirty; the recompute
returns with `iNumPoints = 0` and leaves `iPointsToDraw = 6`, and so does the
whole draw. -/
theorem points_to_draw_survives_emptying :
    Reachable 65535 emptiedChart ∧
    emptiedChart.bLayoutDirty = true ∧ emptiedChart.iPointsToDraw = 6 ∧
    chart_layer_update_layout demoBounds emptiedChart
      = some (layoutResult demoBounds emptiedChart) ∧
    (layoutResult demoBounds emptiedChart).iNumPoints = 0 ∧
    (layoutResult demoBounds emptiedChart).iPointsToDraw = 6 ∧
    chart_layer_update_func demoBounds emptiedChart
      = some (drawResult demoBounds emptiedChart) ∧
    (drawResult demoBounds emptiedChart).iNumPoints = 0 ∧
    (drawResult demoBounds emptiedChart).iPointsToDraw = 6 := by
  have h0 : Reachable 65535 (load_chart_7 chart_layer_create) :=
    Reachable.set_data chart_layer_create [4, 2, 5, 0, 3, 1] [4, 2, 5, 0, 3, 1]
      ChartDataType.eFLOAT ChartDataType.eFLOAT 6 Reachable.create (by decide)
  have h1 : Reachable 65535 (drawResult demoBounds (load_chart_7 chart_layer_create)) :=
    Reachable.update_func (load_chart_7 chart_layer_create) _ demoBounds h0 (by decide!)
  have h2 : Reachable 65535 revealedChart :=
    Reachable.animation_update _ 65535 h1 (le_refl _)
  have h3 : Reachable 65535 emptiedChart :=
    Reachable.set_data revealedChart [] [] ChartDataType.eINT ChartDataType.eINT 0 h2
      (by decide)
  exact ⟨h3, by decide!, by decide!, by decide!, by decide!, by decide!, by decide!,
    by decide!, by decide!⟩

/-- Claim C15, amended.  In every reachable state with `iNumPoints` not zero,
`iPointsToDraw <= iNumPoints`; and every recompute that runs with the dirty
flag set over a non-empty sample set and returns leaves `iPointsToDraw = 0`. -/
theorem points_to_draw_bounded_when_nonempty (ANIMATION_NORMALIZED_MAX : Nat)
    (d : ChartLayerData) (hreach : Reachable ANIMATION_NORMALIZED_MAX d) :
    (d.iNumPoints ≠ 0 → d.iPointsToDraw ≤ d.iNumPoints) ∧
    ∀ (bounds : GSize) (d' : ChartLayerData), d.bLayoutDirty = true →
      d.iNumOrigPoints ≠ 0 → chart_layer_update_layout bounds d = some d' →
      d'.iPointsToDraw = 0 := by
  obtain ⟨-, -, hptr, hinv⟩ := reachable_invariant ANIMATION_NORMALIZED_MAX d hreach
  refine ⟨hinv, ?_⟩
  intro bounds d' hdirty hn hl
  exact (layout_effect bounds d d' hl).2.2.2.2 hdirty hn (hptr hn).1 (hptr hn).2

/-- Claim C15, witness: the demo chart "Unsorted X" after its first draw and
the last tick of the reveal shows 6 of its 6 points; loaded and dirty, its
recompute leaves 0 points to draw. -/
theorem points_to_draw_bounded_when_nonempty_witness :
    Reachable 65535 revealedChart ∧ revealedChart.iNumPoints = 6 ∧
    revealedChart.iPointsToDraw ≤ revealedChart.iNumPoints ∧
    Reachable 65535 (load_chart_7 revealedChart) ∧
    (layoutResult demoBounds (load_chart_7 revealedChart)).iPointsToDraw = 0 := by
  have h0 : Reachable 65535 (load_chart_7 chart_layer_create) :=
    Reachable.set_data chart_layer_create [4, 2, 5, 0, 3, 1] [4, 2, 5, 0, 3, 1]
      ChartDataType.eFLOAT ChartDataType.eFLOAT 6 Reachable.create (by decide)
  have h1 : Reachable 65535 (drawResult demoBounds (load_chart_7 chart_layer_create)) :=
    Reachable.update_func (load_chart_7 chart_layer_create) _ demoBounds h0 (by decide!)
  have hr : Reachable 65535 revealedChart :=
    Reachable.animation_update _ 65535 h1 (le_refl _)
  have hr2 : Reachable 65535 (load_chart_7 revealedChart) :=
    Reachable.set_data revealedChart [4, 2, 5, 0, 3, 1] [4, 2, 5, 0, 3, 1]
      ChartDataType.eFLOAT ChartDataType.eFLOAT 6 hr (by decide)
  exact ⟨hr, by decide!,
    (points_to_draw_bounded_when_nonempty 65535 revealedChart hr).1 (by decide!), hr2,
    (points_to_draw_bounded_when_nonempty 65535 (load_chart_7 revealedChart) hr2).2 demoBounds
      (layoutResult demoBounds (load_chart_7 revealedChart)) (by decide!) (by decide!)
      (by decide!)⟩

/-- Claim C16, the code at the failing input.  The demo chart "Unsorted X"
with the margin set to 72 on the 144 pixel wide layer: the unsigned plotting
width is 0, the plot is not a scatter plot and `0 > 6` is false, so the
quotient `6 / 0` is evaluated; neither the sampling rate nor the recompute is
defined. -/
theorem stride_divides_by_zero_width :
    halfWidthMarginChart.iNumOrigPoints = 6 ∧
    halfWidthMarginChart.typePlot = ChartPlotType.eLINE ∧
    plotWidthU demoBounds halfWidthMarginChart.iMargin = 0 ∧
    ¬ (halfWidthMarginChart.typePlot = ChartPlotType.eSCATTER ∨
      plotWidthU demoBounds halfWidthMarginChart.iMargin > halfWidthMarginChart.iNumOrigPoints) ∧
    iSampling halfWidthMarginChart.typePlot demoBounds halfWidthMarginChart.iMargin
      halfWidthMarginChart.iNumOrigPoints = none ∧
    chart_layer_update_layout demoBounds halfWidthMarginChart = none := by
  decide!

end PebbleChart
